import Mathlib

/-!
Verification of the USP recognition-engine adapter
(`source/core/sr/usp_reco_engine_adapter.cpp`).

The development shallowly embeds the adapter:

* the two-axis state machine (`AudioState` × `UspState`) and its single
  transition primitive `ChangeState`;
* the chunking audio uploader (`UspWrite_Buffered`, `UspWrite_Flush`);
* the RIFF/WAVE format-header writer (`UspWriteFormat`);
* the `speech.context` JSON builders
  (`GetDgiJsonFromListenForList`, `GetLanguageUnderstandingJsonFromIntentInfo`,
  `GetSpeechContextJson`);
* the turn controller: every ingress operation and service-event handler,
  as a step function `step : AdapterState → Stimulus → AdapterState × List Call`
  that returns the successor state together with the ordered list of site
  callbacks and transport calls the handler performs.

Machine integers: audio bytes are modelled as `Nat` (one per byte); sizes as
`Nat`; strings built by the JSON builders as `List Char`.  Helpers whose
bodies live in the class header (not part of the sources), such as the
`ChangeState` convenience overloads, `IsBadState` and
`IsStateBetweenIncluding`, are modelled from the spec and marked as such.
-/

namespace UspAdapter

/-- Audio-side state of the adapter (source enum `AudioState`). -/
inductive AudioState
  | Idle
  | Ready
  | Sending
  | Stopping
deriving DecidableEq

/-- Protocol-side state of the adapter (source enum `UspState`). -/
inductive UspState
  | Idle
  | WaitingForTurnStart
  | WaitingForPhrase
  | WaitingForIntent
  | WaitingForIntent2
  | WaitingForTurnEnd
  | Error
  | Terminating
  | Zombie
deriving DecidableEq

/-- Numeric value of a `UspState`, in source declaration order; used by the
`IsStateBetweenIncluding` range test. -/
def UspState.toNat : UspState → Nat
  | .Idle => 0
  | .WaitingForTurnStart => 1
  | .WaitingForPhrase => 2
  | .WaitingForIntent => 3
  | .WaitingForIntent2 => 4
  | .WaitingForTurnEnd => 5
  | .Error => 6
  | .Terminating => 7
  | .Zombie => 8

/-- Recognition status carried by a `speech.phrase` message
(`USP::RecognitionStatus`); only `Success` is distinguished by the adapter. -/
inductive RecognitionStatus
  | Success
  | Failed
deriving DecidableEq

/-- A `speech.phrase` service message (`USP::SpeechPhraseMsg`). -/
structure SpeechPhraseMsg where
  recognitionStatus : RecognitionStatus
  displayText : String
  offset : Nat
  duration : Nat
  json : String
deriving DecidableEq

/-- A default-constructed `USP::SpeechPhraseMsg()`: the sentinel stored in
`m_finalResultMessageToFireLater` before a phrase is remembered and after
the slot is drained. -/
def emptySpeechPhraseMsg : SpeechPhraseMsg :=
  { recognitionStatus := .Failed, displayText := "", offset := 0,
    duration := 0, json := "" }

/-- The wave format descriptor `WAVEFORMATEX`
`{wFormatTag, nChannels, nSamplesPerSec, nAvgBytesPerSec, nBlockAlign,
wBitsPerSample, cbSize}` followed by `cbSize` extra bytes; `extra` holds
the extra bytes, so `cbSize = extra.length`. -/
structure WAVEFORMATEX where
  wFormatTag : Nat
  nChannels : Nat
  nSamplesPerSec : Nat
  nAvgBytesPerSec : Nat
  nBlockAlign : Nat
  wBitsPerSample : Nat
  extra : List Nat
deriving DecidableEq

/-- Little-endian serialization of a 16-bit value. -/
def u16le (n : Nat) : List Nat := [n % 256, n / 256 % 256]

/-- Little-endian serialization of a 32-bit value (the layout
`FormatBufferWriteNumber` produces for a `uint32_t`). -/
def u32le (n : Nat) : List Nat :=
  [n % 256, n / 256 % 256, n / 65536 % 256, n / 16777216 % 256]

/-- Byte image of a packed `WAVEFORMATEX` struct: the 14-byte `WAVEFORMAT`
prefix, then `wBitsPerSample`, `cbSize`, then the `cbSize` extra bytes
(18 + extra bytes in total). -/
def waveformatexBytes (pformat : WAVEFORMATEX) : List Nat :=
  u16le pformat.wFormatTag ++ u16le pformat.nChannels ++
  u32le pformat.nSamplesPerSec ++ u32le pformat.nAvgBytesPerSec ++
  u16le pformat.nBlockAlign ++ u16le pformat.wBitsPerSample ++
  u16le pformat.extra.length ++ pformat.extra

/-- ASCII bytes of a literal such as "RIFF" as written by
`FormatBufferWriteChars`. -/
def asciiBytes (s : String) : List Nat := s.toList.map Char.toNat

/-- `FormatBufferWriteBytes` (source lines 1025-1029): append raw bytes,
returning the advanced write position. -/
def FormatBufferWriteBytes (buffer source : List Nat) : List Nat :=
  buffer ++ source

/-- `FormatBufferWriteNumber` (source lines 1031-1035): append a
`uint32_t` by `memcpy`, i.e. in little-endian byte order. -/
def FormatBufferWriteNumber (buffer : List Nat) (number : Nat) : List Nat :=
  buffer ++ u32le number

/-- `FormatBufferWriteChars` (source lines 1037-1041): append `cch`
characters of a literal; all uses pass the literal's own length. -/
def FormatBufferWriteChars (buffer : List Nat) (psz : String) : List Nat :=
  buffer ++ asciiBytes psz

/-- `UspWriteFormat` (source lines 391-431): the RIFF/WAVE/fmt/data header
produced from a format descriptor.  `cbFormatChunk = sizeof(WAVEFORMAT) +
cbSize = 14 + extra` and the source `memcpy`s that many bytes from the
start of the `WAVEFORMATEX` struct, hence the `take`.  The result is
handed to the uploader as one single `UspWrite` call. -/
def UspWriteFormat (pformat : WAVEFORMATEX) : List Nat :=
  let cbFormatChunk := 14 + pformat.extra.length
  let cbRiffChunk := 0
  let cbDataChunk := 0
  let b := FormatBufferWriteChars [] "RIFF"
  let b := FormatBufferWriteNumber b cbRiffChunk
  let b := FormatBufferWriteChars b "WAVE"
  let b := FormatBufferWriteChars b "fmt "
  let b := FormatBufferWriteNumber b cbFormatChunk
  let b := FormatBufferWriteBytes b ((waveformatexBytes pformat).take cbFormatChunk)
  let b := FormatBufferWriteChars b "data"
  FormatBufferWriteNumber b cbDataChunk

/-- The adapter's mutable fields plus the site-sourced configuration
snapshot (listen-for list, intent triple, property booleans) that the
handlers read.  `handle` records whether the transport session handle
(`m_handle`) is non-null; `buffer` is the chunking buffer content
(`none` = not allocated); `slot` is `m_finalResultMessageToFireLater`. -/
structure AdapterState where
  audioState : AudioState
  uspState : UspState
  expectIntentResponse : Bool
  singleShot : Bool
  interactive : Bool
  handle : Bool
  format : Option WAVEFORMATEX
  frameSize : Nat
  buffer : Option (List Nat)
  slot : SpeechPhraseMsg
  listenForList : List (List Char)
  intentProvider : List Char
  intentId : List Char
  intentKey : List Char
  noDgi : Bool
  noIntentJson : Bool
  resetAfterError : Bool
  preferredMs : Nat
deriving DecidableEq

/-- The transition primitive
`ChangeState(fromAudioState, fromUspState, toAudioState, toUspState)`
(source lines 1227-1257).  Returns the source's `bool` result together with
the successor state: on success the state pair is committed, otherwise the
state is returned unchanged. -/
def ChangeState (s : AdapterState) (fromAudioState : AudioState)
    (fromUspState : UspState) (toAudioState : AudioState)
    (toUspState : UspState) : Bool × AdapterState :=
  if fromAudioState = s.audioState ∧
     fromUspState = s.uspState ∧
     ((fromUspState ≠ UspState.Error ∧
       fromUspState ≠ UspState.Zombie ∧
       fromUspState ≠ UspState.Terminating) ∨
      (fromUspState = toUspState) ∨
      (fromUspState = UspState.Error ∧ toUspState = UspState.Terminating) ∨
      (fromUspState = UspState.Terminating ∧ toUspState = UspState.Zombie))
  then (true, { s with audioState := toAudioState, uspState := toUspState })
  else (false, s)

/-- Modelled from the spec: short form `change_state(to_usp)` =
`change_state(audio_state, usp_state, audio_state, to_usp)` (the 1-argument
usp overload declared in the class header, which is not in the sources). -/
def ChangeStateUspTo (s : AdapterState) (toUspState : UspState) :
    Bool × AdapterState :=
  ChangeState s s.audioState s.uspState s.audioState toUspState

/-- Modelled from the spec: short form `change_state(to_audio)` keeps the
usp state (header overload not in the sources). -/
def ChangeStateAudioTo (s : AdapterState) (toAudioState : AudioState) :
    Bool × AdapterState :=
  ChangeState s s.audioState s.uspState toAudioState s.uspState

/-- Modelled from the spec: the `(fromAudio, toAudio)` overload keeps the
usp state (header overload not in the sources). -/
def ChangeStateAudio (s : AdapterState) (fromAudioState toAudioState : AudioState) :
    Bool × AdapterState :=
  ChangeState s fromAudioState s.uspState toAudioState s.uspState

/-- Modelled from the spec: the `(fromUsp, toUsp)` overload keeps the
audio state (header overload not in the sources). -/
def ChangeStateUsp (s : AdapterState) (fromUspState toUspState : UspState) :
    Bool × AdapterState :=
  ChangeState s s.audioState fromUspState s.audioState toUspState

/-- Modelled from the spec: short form `change_state(audio, usp)` =
transition both axes leaving the "from" pair implicit (header overload not
in the sources). -/
def ChangeStateTo (s : AdapterState) (toAudioState : AudioState)
    (toUspState : UspState) : Bool × AdapterState :=
  ChangeState s s.audioState s.uspState toAudioState toUspState

/-- Modelled from the spec: the bad-state predicate
`usp_state ∈ {Error, Terminating, Zombie}` (`IsBadState`, header). -/
def IsBadState (s : AdapterState) : Bool :=
  s.uspState = UspState.Error ∨ s.uspState = UspState.Terminating ∨
    s.uspState = UspState.Zombie

/-- Modelled from the spec: `IsStateBetweenIncluding(from, to)` tests the
usp state against an inclusive enum range (header). -/
def IsStateBetweenIncluding (s : AdapterState) (lo hi : UspState) : Bool :=
  lo.toNat ≤ s.uspState.toNat ∧ s.uspState.toNat ≤ hi.toNat

/-- The `for(;;)` loop of `UspWrite_Buffered` (source lines 467-497) on the
non-flush path (`bytesToWrite > 0`), one source loop iteration per call.
`pending` is the filled part of the owned frame buffer
(`m_bytesInBuffer - m_bytesLeftInBuffer` bytes); a full frame is emitted
when the buffer filled exactly, the loop stops when no input remains, and
otherwise `min(bytesToWrite, m_bytesLeftInBuffer)` bytes are copied in.
Returns the frames emitted to `UspWrite_Actual` and the final buffer
content.  (When `frameSize = 0` and input remains, the source loop copies
zero bytes forever; that configuration is unreachable because `UspWrite`
dispatches writes to the unbuffered path when the preferred size is zero,
and it is cut off here by the `frameSize ≤ pending.length` guard.) -/
def UspWriteLoop (frameSize : Nat) (input pending : List Nat) :
    List (List Nat) × List Nat :=
  if hfull : 0 < frameSize ∧ pending.length = frameSize then
    match input with
    | [] => ([pending], [])
    | a :: rest =>
      let r := UspWriteLoop frameSize
        ((a :: rest).drop (min (a :: rest).length frameSize))
        ((a :: rest).take (min (a :: rest).length frameSize))
      (pending :: r.1, r.2)
  else
    match input with
    | [] => ([], pending)
    | a :: rest =>
      if h2 : frameSize ≤ pending.length then ([], pending ++ a :: rest)
      else
        UspWriteLoop frameSize
          ((a :: rest).drop (min (a :: rest).length (frameSize - pending.length)))
          (pending ++ (a :: rest).take (min (a :: rest).length (frameSize - pending.length)))
termination_by input.length
decreasing_by
  all_goals simp only [List.length_drop, List.length_cons]
  · omega
  · omega

/-- `UspWrite_Buffered` (source lines 454-498) as a pure function of the
service-preferred frame size, the current buffer (`none` = not allocated)
and the bytes written.  Returns the frames handed to `UspWrite_Actual`
(in order) and the new buffer.  `input = []` is the `flushBuffer` path:
the first loop iteration emits the partial frame (possibly zero bytes),
the buffer is released and the loop breaks. -/
def UspWrite_Buffered (frameSize : Nat) (buf : Option (List Nat))
    (input : List Nat) : List (List Nat) × Option (List Nat) :=
  let pending := buf.getD []
  if input = [] then ([pending], none)
  else
    let r := UspWriteLoop frameSize input pending
    (r.1, some r.2)

/-- A sequence of `UspWrite_Buffered` write calls starting from a given
buffer, collecting all emitted frames. -/
def runWrites (frameSize : Nat) (inputs : List (List Nat))
    (buf : Option (List Nat)) : List (List Nat) × Option (List Nat) :=
  match inputs with
  | [] => ([], buf)
  | inp :: rest =>
    let r := UspWrite_Buffered frameSize buf inp
    let w := runWrites frameSize rest r.2
    (r.1 ++ w.1, w.2)

/-- One turn of the chunking uploader: a fresh (unallocated) buffer, a
sequence of writes, then the flush. -/
def runChunkingSession (frameSize : Nat) (inputs : List (List Nat)) :
    List (List Nat) × Option (List Nat) :=
  let w := runWrites frameSize inputs none
  let f := UspWrite_Buffered frameSize w.2 []
  (w.1 ++ f.1, f.2)

-- ### JSON builders for the `speech.context` message

/-- Literal `"Groups": [` fragment. -/
def groupsPre : List Char :=
  ['"', 'G', 'r', 'o', 'u', 'p', 's', '"', ':', ' ', '[']

/-- Literal `\x7b"Type":"Generic","Items":[` fragment. -/
def typeGenericPre : List Char :=
  ['\x7b', '"', 'T', 'y', 'p', 'e', '"', ':', '"', 'G', 'e', 'n', 'e', 'r',
    'i', 'c', '"', ',', '"', 'I', 't', 'e', 'm', 's', '"', ':', '[']

/-- Literal `\x7b"Text":"` fragment opening one generic item. -/
def itemPre : List Char :=
  ['\x7b', '"', 'T', 'e', 'x', 't', '"', ':', '"']

/-- Literal `"\x7d` fragment closing one generic item. -/
def itemPost : List Char := ['"', '\x7d']

/-- Literal `]\x7d]` closing the Items array, the Generic group object and
the Groups array. -/
def itemsGroupsClose : List Char := [']', '\x7d', ']']

/-- Literal `"ReferenceGrammars": [` fragment. -/
def refGramPre : List Char :=
  ['"', 'R', 'e', 'f', 'e', 'r', 'e', 'n', 'c', 'e', 'G', 'r', 'a', 'm',
    'm', 'a', 'r', 's', '"', ':', ' ', '[']

/-- Literal `\x7b"provider":"` fragment. -/
def providerPre : List Char :=
  ['\x7b', '"', 'p', 'r', 'o', 'v', 'i', 'd', 'e', 'r', '"', ':', '"']

/-- Literal `","id":"` fragment. -/
def idPre : List Char := ['"', ',', '"', 'i', 'd', '"', ':', '"']

/-- Literal `","key":"` fragment. -/
def keyPre : List Char := ['"', ',', '"', 'k', 'e', 'y', '"', ':', '"']

/-- Literal `"\x7d` fragment closing the intent object. -/
def intentPost : List Char := ['"', '\x7d']

/-- Literal `"dgi":` key fragment. -/
def dgiKey : List Char := ['"', 'd', 'g', 'i', '"', ':']

/-- Literal `"intent":` key fragment. -/
def intentKey : List Char := ['"', 'i', 'n', 't', 'e', 'n', 't', '"', ':']

/-- Replace the first `:` by `/`, as
`ref.replace(ref.find(':'), 1, "/")` does (source line 1067). -/
def replaceFirstColon : List Char → List Char
  | [] => []
  | c :: cs => if c = ':' then '/' :: cs else c :: replaceFirstColon cs

/-- The reference-grammar test of the classification loop (source lines
1062-1064): length > 3, starts with `\x7b`, ends with `\x7d`, contains `:`. -/
def isReferenceGrammarHint (listenFor : List Char) : Bool :=
  listenFor.length > 3 ∧ listenFor.head? = some '\x7b' ∧
    listenFor.getLast? = some '\x7d' ∧ listenFor.contains ':'

/-- The body transform applied to a reference-grammar entry:
`substr(1, length-2)` then replace the first `:` by `/`
(source lines 1066-1067). -/
def referenceGrammarOf (listenFor : List Char) : List Char :=
  replaceFirstColon ((listenFor.drop 1).take (listenFor.length - 2))

/-- The classification loop of `GetDgiJsonFromListenForList` (source lines
1060-1074): split the listen-for list into reference grammars (transformed)
and generic items, preserving order. -/
def classifyListenForList : List (List Char) → List (List Char) × List (List Char)
  | [] => ([], [])
  | listenFor :: rest =>
    let r := classifyListenForList rest
    if isReferenceGrammarHint listenFor then
      (referenceGrammarOf listenFor :: r.1, r.2)
    else
      (r.1, listenFor :: r.2)

/-- The `appendComma` loop pattern of the source: join pieces with `,`. -/
def joinComma : List (List Char) → List Char
  | [] => []
  | [x] => x
  | x :: y :: rest => x ++ ',' :: joinComma (y :: rest)

/-- One generic item `\x7b"Text":"..."\x7d` as concatenated by the item
loop (source lines 1090-1094). -/
def wrapItem (item : List Char) : List Char := itemPre ++ item ++ itemPost

/-- One quoted reference grammar as concatenated by the grammar loop
(source lines 1112-1116). -/
def wrapGrammar (grammar : List Char) : List Char := '"' :: grammar ++ ['"']

/-- `GetDgiJsonFromListenForList` (source lines 1049-1127): build the dgi
JSON text from the listen-for list; `noDGI` (property
`CARBON-INTERNAL-USP-NoDGI`) blanks the result. -/
def GetDgiJsonFromListenForList (listenForList : List (List Char))
    (noDGI : Bool) : List Char :=
  let grammars := (classifyListenForList listenForList).1
  let genericItems := (classifyListenForList listenForList).2
  let dgiJson :=
    if grammars.length > 0 ∨ genericItems.length > 0 then
      '\x7b' ::
      ((if genericItems.length > 0 then
          groupsPre ++ typeGenericPre ++
            joinComma (genericItems.map wrapItem) ++ itemsGroupsClose
        else []) ++
       (if grammars.length > 0 then
          (if genericItems.length > 0 then [','] else []) ++
            refGramPre ++ joinComma (grammars.map wrapGrammar) ++ [']']
        else []) ++
       ['\x7d'])
    else []
  if noDGI then [] else dgiJson

/-- `GetLanguageUnderstandingJsonFromIntentInfo` (source lines 1135-1159):
build the intent JSON from the provider/id/key triple; `noIntentJson`
(property `CARBON-INTERNAL-USP-NoIntentJson`) blanks the result. -/
def GetLanguageUnderstandingJsonFromIntentInfo (provider id key : List Char)
    (noIntentJson : Bool) : List Char :=
  let intentJson :=
    if provider ≠ [] ∧ id ≠ [] ∧ key ≠ [] then
      providerPre ++ provider ++ idPre ++ id ++ keyPre ++ key ++ intentPost
    else []
  if noIntentJson then [] else intentJson

/-- `GetSpeechContextJson` (source lines 1161-1190): assemble the
`speech.context` payload from the two branches, omitting empty branches
and producing the empty string when both are empty. -/
def GetSpeechContextJson (dgiJson intentJson : List Char) : List Char :=
  if dgiJson ≠ [] ∨ intentJson ≠ [] then
    '\x7b' ::
    ((if dgiJson ≠ [] then dgiKey ++ dgiJson else []) ++
     (if intentJson ≠ [] then
        (if dgiJson ≠ [] then [','] else []) ++ intentKey ++ intentJson
      else []) ++
     ['\x7d'])
  else []

-- ### The turn controller: handlers and the step function

/-- A site callback fired by the adapter. -/
inductive SiteCall
  | startingTurn
  | startedTurn (tag : String)
  | detectedSpeechStart (offset : Nat)
  | detectedSpeechEnd (offset : Nat)
  | intermediateResult (offset : Nat) (text json : String)
  | finalResult (offset : Nat) (text json luisJson : String)
  | translationSynthesisResult
  | stoppedTurn
  | requestingAudioIdle
  | completedSetFormatStop
  | siteError (message : String)
deriving DecidableEq

/-- A call into the transport session. -/
inductive UspCall
  | sendMessage (path : String) (payload : List Char)
  | writeAudio (bytes : List Nat)
  | flushAudio
  | connect
deriving DecidableEq

/-- An observable effect of a handler: a site callback or a transport
call, in program order. -/
inductive Call
  | site (c : SiteCall)
  | usp (c : UspCall)
deriving DecidableEq

/-- Modelled from the spec: `IsInteractiveMode()` compares the resolved
recognition mode against `Interactive` (header; the mode is part of the
configuration snapshot here). -/
def IsInteractiveMode (s : AdapterState) : Bool := s.interactive

/-- Modelled from the spec: `m_fUseBufferedImplementation` is a member
initialized to true in the class header; buffering is on and only a zero
preferred frame size routes writes past the buffer. -/
def fUseBufferedImplementation : Bool := true

/-- Stands for the null dereference the source would perform were the
stored format absent; unreachable on the paths that use it, because they
require an audio state that implies a stored format. -/
def nullWAVEFORMATEX : WAVEFORMATEX :=
  { wFormatTag := 0, nChannels := 0, nSamplesPerSec := 0,
    nAvgBytesPerSec := 0, nBlockAlign := 0, wBitsPerSample := 0, extra := [] }

/-- `UspSendMessage` (source lines 382-389): guarded passthrough to
`SendMessage`; dropped in Terminating/Zombie or with a null handle. -/
def UspSendMessage (s : AdapterState) (messagePath : String)
    (buffer : List Char) : List Call :=
  if s.uspState ≠ UspState.Terminating ∧ s.uspState ≠ UspState.Zombie ∧
      s.handle then
    [Call.usp (UspCall.sendMessage messagePath buffer)]
  else []

/-- `UspWrite_Actual` (source lines 444-452): guarded passthrough to
`WriteAudio`; dropped in Terminating/Zombie or with a null handle. -/
def UspWrite_Actual (s : AdapterState) (buffer : List Nat) : List Call :=
  if s.uspState ≠ UspState.Terminating ∧ s.uspState ≠ UspState.Zombie ∧
      s.handle then
    [Call.usp (UspCall.writeAudio buffer)]
  else []

/-- `UspWrite` (source lines 433-442): dispatch to the unbuffered or the
buffered implementation; each frame the buffered path emits goes through
`UspWrite_Actual`. -/
def UspWrite (s : AdapterState) (buffer : List Nat) :
    AdapterState × List Call :=
  if ¬ fUseBufferedImplementation ∨ s.frameSize = 0 then
    (s, UspWrite_Actual s buffer)
  else
    let r := UspWrite_Buffered s.frameSize s.buffer buffer
    ({ s with buffer := r.2 }, (r.1.map (UspWrite_Actual s)).flatten)

/-- `UspWrite_Flush` (source lines 500-508): guarded; runs the buffered
flush then `FlushAudio`. -/
def UspWrite_Flush (s : AdapterState) : AdapterState × List Call :=
  if s.uspState ≠ UspState.Terminating ∧ s.uspState ≠ UspState.Zombie ∧
      s.handle then
    let r := UspWrite_Buffered s.frameSize s.buffer []
    ({ s with buffer := r.2 },
      (r.1.map (UspWrite_Actual s)).flatten ++ [Call.usp UspCall.flushAudio])
  else (s, [])

/-- `UspSendSpeechContext` (source lines 352-374): build the dgi and
intent payloads, record `m_expectIntentResponse`, and send the combined
`speech.context` message when it is non-empty. -/
def UspSendSpeechContext (s : AdapterState) : AdapterState × List Call :=
  let listenForJson := GetDgiJsonFromListenForList s.listenForList s.noDgi
  let intentJson := GetLanguageUnderstandingJsonFromIntentInfo
    s.intentProvider s.intentId s.intentKey s.noIntentJson
  let s1 := { s with expectIntentResponse := !intentJson.isEmpty }
  let speechContext := GetSpeechContextJson listenForJson intentJson
  if speechContext ≠ [] then
    (s1, UspSendMessage s1 "speech.context" speechContext)
  else (s1, [])

/-- `UspInitialize` (source lines 169-186): resolve endpoint, mode and
authentication from the property snapshot and connect, producing the
session handle. -/
def UspInitialize (s : AdapterState) : AdapterState × List Call :=
  ({ s with handle := true }, [Call.usp UspCall.connect])

/-- `EnsureUspInit` (source lines 161-167): connect only when the handle
is absent. -/
def EnsureUspInit (s : AdapterState) : AdapterState × List Call :=
  if s.handle then (s, []) else UspInitialize s

/-- `PrepareAudioReadyState` (source lines 1270-1276): reset the preferred
frame size to zero and ensure the session exists. -/
def PrepareAudioReadyState (s : AdapterState) : AdapterState × List Call :=
  EnsureUspInit { s with frameSize := 0 }

/-- `PrepareFirstAudioReadyState` (source lines 1259-1268): store a copy
of the format, then prepare the audio-ready state. -/
def PrepareFirstAudioReadyState (s : AdapterState) (format : WAVEFORMATEX) :
    AdapterState × List Call :=
  PrepareAudioReadyState { s with format := some format }

/-- `SendPreAudioMessages` (source lines 1278-1285): `speech.context`
first, then the WAV header through `UspWrite` (still unbuffered, the
frame size is zero here), then compute the preferred frame size. -/
def SendPreAudioMessages (s : AdapterState) : AdapterState × List Call :=
  let r1 := UspSendSpeechContext s
  let fmt := r1.1.format.getD nullWAVEFORMATEX
  let r2 := UspWrite r1.1 (UspWriteFormat fmt)
  ({ r2.1 with frameSize :=
      fmt.nSamplesPerSec * fmt.nBlockAlign * r2.1.preferredMs / 1000 },
    r1.2 ++ r2.2)

/-- `FireFinalResultNow` (source lines 1198-1218): create a final speech
result carrying the phrase text, the raw phrase json, and (when non-empty)
the LUIS json, and fire `FireAdapterResult_FinalResult`. -/
def FireFinalResultNow (message : SpeechPhraseMsg) (luisJson : String) :
    List Call :=
  [Call.site (SiteCall.finalResult message.offset message.displayText
    message.json luisJson)]

/-- `FireFinalResultLater` (source lines 1193-1196): remember the phrase
in the pending slot. -/
def FireFinalResultLater (s : AdapterState) (message : SpeechPhraseMsg) :
    AdapterState :=
  { s with slot := message }

/-- `FireFinalResultLater_WaitingForIntentComplete` (source lines
1220-1225): fire the stored phrase with the given LUIS json and reset the
slot to a default-constructed message. -/
def FireFinalResultLater_WaitingForIntentComplete (s : AdapterState)
    (luisJson : String) : AdapterState × List Call :=
  ({ s with slot := emptySpeechPhraseMsg }, FireFinalResultNow s.slot luisJson)

/-- `Term` (source lines 47-67): flip to Terminating, destroy the session
handle, flip to Zombie; a no-op when the Terminating transition is
refused (in particular when already Zombie). -/
def Term (s : AdapterState) : AdapterState × List Call :=
  let r := ChangeStateUspTo s UspState.Terminating
  if r.1 then
    ((ChangeStateUspTo { r.2 with handle := false } UspState.Zombie).2, [])
  else (s, [])

/-- `SetFormat` (source lines 75-114). -/
def SetFormat (s : AdapterState) (pformat : Option WAVEFORMATEX) :
    AdapterState × List Call :=
  if IsBadState s ∧ s.uspState ≠ UspState.Terminating then (s, [])
  else
    match pformat with
    | some fmt =>
      if s.uspState = UspState.Idle ∧
          (ChangeStateAudio s AudioState.Idle AudioState.Ready).1 then
        PrepareFirstAudioReadyState
          (ChangeStateAudio s AudioState.Idle AudioState.Ready).2 fmt
      else (s, [])
    | none =>
      let r := ChangeStateAudioTo s AudioState.Idle
      if r.1 ∨ r.2.uspState = UspState.Terminating then
        ({ r.2 with format := none }, [Call.site SiteCall.completedSetFormatStop])
      else (s, [])

/-- `ProcessAudio` (source lines 116-159). -/
def ProcessAudio (s : AdapterState) (data : List Nat) :
    AdapterState × List Call :=
  if IsBadState s then (s, [])
  else if data.length > 0 ∧
      (ChangeState s AudioState.Ready UspState.Idle
        AudioState.Sending UspState.WaitingForTurnStart).1 then
    let s1 := (ChangeState s AudioState.Ready UspState.Idle
      AudioState.Sending UspState.WaitingForTurnStart).2
    let r1 := SendPreAudioMessages s1
    let r2 := UspWrite r1.1 data
    (r2.1, r1.2 ++ r2.2 ++ [Call.site SiteCall.startingTurn])
  else if data.length > 0 ∧ s.audioState = AudioState.Sending then
    UspWrite s data
  else if data.length = 0 ∧ s.audioState = AudioState.Sending then
    UspWrite_Flush s
  else (s, [])

/-- `OnSpeechStartDetected` (source lines 510-537). -/
def OnSpeechStartDetected (s : AdapterState) (offset : Nat) :
    AdapterState × List Call :=
  if IsBadState s then (s, [])
  else if s.uspState = UspState.WaitingForPhrase then
    (s, [Call.site (SiteCall.detectedSpeechStart offset)])
  else (s, [])

/-- `OnSpeechEndDetected` (source lines 539-577).  Note the source
computes `requestIdle` (possibly committing Sending → Stopping) before
the bad-state test, flushes unconditionally, and fires
`AdapterRequestingAudioIdle` only when not in a bad state. -/
def OnSpeechEndDetected (s : AdapterState) (offset : Nat) :
    AdapterState × List Call :=
  let rIdle := if s.singleShot then
      ChangeStateAudio s AudioState.Sending AudioState.Stopping
    else (false, s)
  let s1 := rIdle.2
  let calls1 :=
    if IsBadState s1 then []
    else if IsStateBetweenIncluding s1 UspState.WaitingForPhrase
        UspState.WaitingForTurnEnd ∧
        (s1.audioState = AudioState.Idle ∨ s1.audioState = AudioState.Sending ∨
          s1.audioState = AudioState.Stopping) then
      [Call.site (SiteCall.detectedSpeechEnd offset)]
    else []
  let rFlush := UspWrite_Flush s1
  let calls3 := if rIdle.1 ∧ ¬ IsBadState rFlush.1 then
      [Call.site SiteCall.requestingAudioIdle]
    else []
  (rFlush.1, calls1 ++ rFlush.2 ++ calls3)

/-- `OnSpeechHypothesis` (source lines 579-609); fires an intermediate
result in WaitingForPhrase, drops otherwise; no state change (read lock). -/
def OnSpeechHypothesis (s : AdapterState) (text : String) (offset : Nat)
    (json : String) : AdapterState × List Call :=
  if IsBadState s then (s, [])
  else if s.uspState = UspState.WaitingForPhrase then
    (s, [Call.site (SiteCall.intermediateResult offset text json)])
  else (s, [])

/-- `OnSpeechFragment` (source lines 611-658). -/
def OnSpeechFragment (s : AdapterState) (text : String) (offset : Nat)
    (json : String) : AdapterState × List Call :=
  if IsBadState s then (s, [])
  else
    let r := ChangeStateUsp s UspState.WaitingForIntent UspState.WaitingForIntent2
    if r.1 then
      let rc := FireFinalResultLater_WaitingForIntentComplete r.2 ""
      ((ChangeStateUsp rc.1 UspState.WaitingForIntent2 UspState.WaitingForPhrase).2,
        rc.2 ++ [Call.site (SiteCall.intermediateResult offset text json)])
    else if s.uspState = UspState.WaitingForPhrase then
      (s, [Call.site (SiteCall.intermediateResult offset text json)])
    else (s, [])

/-- `OnSpeechPhrase` (source lines 660-692). -/
def OnSpeechPhrase (s : AdapterState) (message : SpeechPhraseMsg) :
    AdapterState × List Call :=
  if IsBadState s then (s, [])
  else if s.expectIntentResponse ∧
      message.recognitionStatus = RecognitionStatus.Success ∧
      (ChangeStateUsp s UspState.WaitingForPhrase UspState.WaitingForIntent).1 then
    (FireFinalResultLater
      (ChangeStateUsp s UspState.WaitingForPhrase UspState.WaitingForIntent).2
      message, [])
  else if (IsInteractiveMode s ∧
      (ChangeStateUsp s UspState.WaitingForPhrase UspState.WaitingForTurnEnd).1) ∨
      (¬ IsInteractiveMode s ∧
      (ChangeStateUsp s UspState.WaitingForPhrase UspState.WaitingForPhrase).1) then
    (if IsInteractiveMode s then
      (ChangeStateUsp s UspState.WaitingForPhrase UspState.WaitingForTurnEnd).2
     else
      (ChangeStateUsp s UspState.WaitingForPhrase UspState.WaitingForPhrase).2,
     FireFinalResultNow message "")
  else (s, [])

/-- `OnTranslationHypothesis` (source lines 694-756): an intermediate
translation result in WaitingForPhrase, dropped otherwise. -/
def OnTranslationHypothesis (s : AdapterState) (text : String) (offset : Nat)
    (json : String) : AdapterState × List Call :=
  if IsBadState s then (s, [])
  else if s.uspState = UspState.WaitingForPhrase then
    (s, [Call.site (SiteCall.intermediateResult offset text json)])
  else (s, [])

/-- `OnTranslationPhrase` (source lines 758-824). -/
def OnTranslationPhrase (s : AdapterState) (text : String) (offset : Nat)
    (json : String) : AdapterState × List Call :=
  if IsBadState s then (s, [])
  else if (IsInteractiveMode s ∧
      (ChangeStateUsp s UspState.WaitingForPhrase UspState.WaitingForTurnEnd).1) ∨
      (¬ IsInteractiveMode s ∧
      (ChangeStateUsp s UspState.WaitingForPhrase UspState.WaitingForPhrase).1) then
    (if IsInteractiveMode s then
      (ChangeStateUsp s UspState.WaitingForPhrase UspState.WaitingForTurnEnd).2
     else
      (ChangeStateUsp s UspState.WaitingForPhrase UspState.WaitingForPhrase).2,
     [Call.site (SiteCall.finalResult offset text json "")])
  else (s, [])

/-- `OnTranslationSynthesis` (source lines 826-842): creates and fires a
translation-synthesis result with no state check whatsoever. -/
def OnTranslationSynthesis (s : AdapterState) : AdapterState × List Call :=
  (s, [Call.site SiteCall.translationSynthesisResult])

/-- `OnTranslationSynthesisEnd` (source lines 844-874): likewise fires a
translation-synthesis result with no state check. -/
def OnTranslationSynthesisEnd (s : AdapterState) : AdapterState × List Call :=
  (s, [Call.site SiteCall.translationSynthesisResult])

/-- `OnTurnStart` (source lines 876-899). -/
def OnTurnStart (s : AdapterState) (tag : String) : AdapterState × List Call :=
  if IsBadState s then (s, [])
  else
    let r := ChangeStateUsp s UspState.WaitingForTurnStart UspState.WaitingForPhrase
    if r.1 then (r.2, [Call.site (SiteCall.startedTurn tag)])
    else (s, [])

/-- `OnTurnEnd` (source lines 901-963).  The audio-axis transitions for
`prepareReady`/`requestIdle` are attempted before the bad-state test, and
the `requestIdle` block at the end is not guarded by a bad-state test. -/
def OnTurnEnd (s : AdapterState) : AdapterState × List Call :=
  let rReady := if ¬ s.singleShot then
      ChangeStateAudio s AudioState.Sending AudioState.Ready
    else (false, s)
  let rIdle := if s.singleShot then
      ChangeStateAudio rReady.2 AudioState.Sending AudioState.Stopping
    else (false, rReady.2)
  let s1 := rIdle.2
  let d : AdapterState × Bool × List Call :=
    if IsBadState s1 then (s1, false, [])
    else if (IsInteractiveMode s1 ∧
        (ChangeStateUsp s1 UspState.WaitingForTurnEnd UspState.Idle).1) ∨
        (¬ IsInteractiveMode s1 ∧
        (ChangeStateUsp s1 UspState.WaitingForPhrase UspState.Idle).1) then
      (if IsInteractiveMode s1 then
        (ChangeStateUsp s1 UspState.WaitingForTurnEnd UspState.Idle).2
       else (ChangeStateUsp s1 UspState.WaitingForPhrase UspState.Idle).2,
       true, [])
    else
      let rI := ChangeStateUsp s1 UspState.WaitingForIntent UspState.WaitingForIntent2
      if rI.1 then
        let rc := FireFinalResultLater_WaitingForIntentComplete rI.2 ""
        ((ChangeStateUsp rc.1 UspState.WaitingForIntent2 UspState.Idle).2,
          true, rc.2)
      else (s1, false, [])
  let rPrep := if rReady.1 ∧ ¬ IsBadState d.1 then PrepareAudioReadyState d.1
    else (d.1, [])
  let calls3 := if d.2.1 then [Call.site SiteCall.stoppedTurn] else []
  let rFlush := if rIdle.1 then UspWrite_Flush rPrep.1 else (rPrep.1, [])
  let calls4 := if rIdle.1 then
      rFlush.2 ++ [Call.site SiteCall.requestingAudioIdle]
    else []
  (rFlush.1, d.2.2 ++ rPrep.2 ++ calls3 ++ calls4)

/-- `ShouldResetAfterError` (source lines 1287-1293): the
`CARBON-INTERNAL-USP-ResetAfterError` property and a stored format. -/
def ShouldResetAfterError (s : AdapterState) : Bool :=
  s.resetAfterError ∧ s.format.isSome

/-- `ResetAfterError` (source lines 1295-1301): drop the handle and
re-prepare the audio-ready state (reconnecting). -/
def ResetAfterError (s : AdapterState) : AdapterState × List Call :=
  PrepareAudioReadyState { s with handle := false }

/-- `OnError` (source lines 965-999). -/
def OnError (s : AdapterState) (error : String) : AdapterState × List Call :=
  if IsBadState s then (s, [])
  else if ShouldResetAfterError s ∧
      (ChangeStateTo s AudioState.Ready UspState.Idle).1 then
    let r := ResetAfterError (ChangeStateTo s AudioState.Ready UspState.Idle).2
    (r.1, Call.site (SiteCall.siteError error) :: r.2)
  else if (ChangeStateUspTo s UspState.Error).1 then
    ((ChangeStateUspTo s UspState.Error).2,
      [Call.site (SiteCall.siteError error)])
  else (s, [])

/-- `OnUserMessage` (source lines 1001-1023): only path `"response"` is
examined; in WaitingForIntent the payload completes the pending final
result (under a read lock: no state transition). -/
def OnUserMessage (s : AdapterState) (path : String) (buffer : String) :
    AdapterState × List Call :=
  if path = "response" then
    if s.uspState = UspState.WaitingForIntent then
      FireFinalResultLater_WaitingForIntentComplete s buffer
    else (s, [])
  else (s, [])

/-- An ingress operation or service event delivered to the adapter. -/
inductive Stimulus
  | term
  | setFormat (pformat : Option WAVEFORMATEX)
  | processAudio (data : List Nat)
  | speechStartDetected (offset : Nat)
  | speechEndDetected (offset : Nat)
  | speechHypothesis (text : String) (offset : Nat) (json : String)
  | speechFragment (text : String) (offset : Nat) (json : String)
  | speechPhrase (message : SpeechPhraseMsg)
  | translationHypothesis (text : String) (offset : Nat) (json : String)
  | translationPhrase (text : String) (offset : Nat) (json : String)
  | translationSynthesis
  | translationSynthesisEnd
  | turnStart (tag : String)
  | turnEnd
  | serviceError (message : String)
  | userMessage (path : String) (buffer : String)
deriving DecidableEq

/-- Dispatch one stimulus to its handler. -/
def step (s : AdapterState) : Stimulus → AdapterState × List Call
  | .term => Term s
  | .setFormat pformat => SetFormat s pformat
  | .processAudio data => ProcessAudio s data
  | .speechStartDetected offset => OnSpeechStartDetected s offset
  | .speechEndDetected offset => OnSpeechEndDetected s offset
  | .speechHypothesis text offset json => OnSpeechHypothesis s text offset json
  | .speechFragment text offset json => OnSpeechFragment s text offset json
  | .speechPhrase message => OnSpeechPhrase s message
  | .translationHypothesis text offset json =>
      OnTranslationHypothesis s text offset json
  | .translationPhrase text offset json => OnTranslationPhrase s text offset json
  | .translationSynthesis => OnTranslationSynthesis s
  | .translationSynthesisEnd => OnTranslationSynthesisEnd s
  | .turnStart tag => OnTurnStart s tag
  | .turnEnd => OnTurnEnd s
  | .serviceError message => OnError s message
  | .userMessage path buffer => OnUserMessage s path buffer

/-- Run a sequence of stimuli, concatenating all calls in order. -/
def runTrace (s : AdapterState) : List Stimulus → AdapterState × List Call
  | [] => (s, [])
  | e :: rest =>
    let r := step s e
    let w := runTrace r.1 rest
    (w.1, r.2 ++ w.2)

/-- Recognizer for `final_result` site callbacks. -/
def isFinalResultCall : Call → Bool
  | .site (SiteCall.finalResult _ _ _ _) => true
  | _ => false

/-- Number of `final_result` site callbacks in a call list. -/
def countFinalResults (calls : List Call) : Nat :=
  calls.countP isFinalResultCall

/-- Recognizer for transport calls. -/
def isUspCall : Call → Bool
  | .usp _ => true
  | _ => false

-- ### Concrete states and inputs used by witnesses and counterexamples

/-- A 16 kHz 16-bit mono PCM format. -/
def fmt16k : WAVEFORMATEX :=
  { wFormatTag := 1, nChannels := 1, nSamplesPerSec := 16000,
    nAvgBytesPerSec := 32000, nBlockAlign := 2, wBitsPerSample := 16,
    extra := [] }

/-- A freshly initialized adapter: state pair `(Idle, Idle)`, no session
handle, no format, empty configuration. -/
def initialState : AdapterState :=
  { audioState := .Idle, uspState := .Idle, expectIntentResponse := false,
    singleShot := true, interactive := true, handle := false, format := none,
    frameSize := 0, buffer := none, slot := emptySpeechPhraseMsg,
    listenForList := [], intentProvider := [], intentId := [], intentKey := [],
    noDgi := false, noIntentJson := false, resetAfterError := false,
    preferredMs := 600 }

/-- Mid-turn adapter state: sending audio, waiting for the phrase, intent
response expected (single-shot interactive mode, session open). -/
def sendingIntentState : AdapterState :=
  { initialState with
      audioState := .Sending
      uspState := .WaitingForPhrase
      expectIntentResponse := true
      handle := true
      format := some fmt16k
      intentProvider := ("LUIS").toList
      intentId := ("appid").toList
      intentKey := ("key1").toList }

/-- Mid-turn adapter state without intent expectation. -/
def sendingState : AdapterState :=
  { initialState with
      audioState := .Sending
      uspState := .WaitingForPhrase
      handle := true
      format := some fmt16k }

/-- A successful `speech.phrase` message. -/
def phraseMsg : SpeechPhraseMsg :=
  { recognitionStatus := .Success, displayText := "play music", offset := 5,
    duration := 7, json := "pj" }

/-- An adapter that reached the Error state while still `Sending`
(single-shot mode, session open). -/
def errorSendingState : AdapterState :=
  { initialState with
      audioState := .Sending
      uspState := .Error
      handle := true
      format := some fmt16k }

/-- The stimuli whose handlers drop a bad-state stimulus as a complete
no-op (no state change, no calls).  Excluded: `term` (which deliberately
walks Error → Terminating → Zombie), `setFormat none` (accepted during
Terminating), `speechEndDetected` and `turnEnd` (which attempt their
audio-axis transitions before the bad-state test and flush), and the two
translation-synthesis events (which have no state check at all). -/
def stimulusFullyGatedInBadState : Stimulus → Bool
  | .term => false
  | .setFormat none => false
  | .speechEndDetected _ => false
  | .turnEnd => false
  | .translationSynthesis => false
  | .translationSynthesisEnd => false
  | _ => true

-- ### A parser for the speech.context payload, modelled from the spec.
-- The source only builds the payload; parsing inbound JSON is outside the
-- sources, so the round-trip inverse is modelled from the spec's §4.D
-- output shape.

/-- Modelled from the spec: consume an expected literal fragment of the
§4.D output shape, returning the remainder. -/
def dropLit : List Char → List Char → Option (List Char)
  | [], xs => some xs
  | _ :: _, [] => none
  | c :: cs, x :: xs => if c = x then dropLit cs xs else none

/-- Modelled from the spec: scan a quoted string's content up to (and not
including) its closing quote. -/
def scanStr : List Char → Option (List Char × List Char)
  | [] => none
  | c :: cs =>
    if c = '"' then some ([], c :: cs)
    else
      match scanStr cs with
      | none => none
      | some p => some (c :: p.1, p.2)

/-- Modelled from the spec: parse the comma-separated generic items
`\x7b"Text":"..."\x7d,...`; fuelled — the entry point passes the input
length, and each item consumes at least one character, so that fuel
always suffices. -/
def parseItemsF : Nat → List Char → Option (List (List Char) × List Char)
  | 0, _ => none
  | fuel + 1, cs =>
    match dropLit itemPre cs with
    | none => none
    | some r1 =>
      match scanStr r1 with
      | none => none
      | some p =>
        match dropLit itemPost p.2 with
        | none => none
        | some r3 =>
          match r3 with
          | ',' :: r4 =>
            match parseItemsF fuel r4 with
            | none => none
            | some q => some (p.1 :: q.1, q.2)
          | _ => some ([p.1], r3)

/-- Modelled from the spec: parse the comma-separated quoted reference
grammars; fuelled like `parseItemsF`. -/
def parseGrammarsF : Nat → List Char → Option (List (List Char) × List Char)
  | 0, _ => none
  | fuel + 1, cs =>
    match dropLit ['"'] cs with
    | none => none
    | some r1 =>
      match scanStr r1 with
      | none => none
      | some p =>
        match dropLit ['"'] p.2 with
        | none => none
        | some r3 =>
          match r3 with
          | ',' :: r4 =>
            match parseGrammarsF fuel r4 with
            | none => none
            | some q => some (p.1 :: q.1, q.2)
          | _ => some ([p.1], r3)

/-- Modelled from the spec: the generic-items parser at its natural fuel. -/
def parseItems (cs : List Char) : Option (List (List Char) × List Char) :=
  parseItemsF cs.length cs

/-- Modelled from the spec: the reference-grammars parser at its natural
fuel. -/
def parseGrammars (cs : List Char) : Option (List (List Char) × List Char) :=
  parseGrammarsF cs.length cs

/-- Modelled from the spec: parse the intent object
`\x7b"provider":"..","id":"..","key":".."\x7d`, returning the triple and
the remainder. -/
def parseIntent (cs : List Char) :
    Option (List Char × List Char × List Char × List Char) :=
  match dropLit providerPre cs with
  | none => none
  | some r1 =>
    match scanStr r1 with
    | none => none
    | some p1 =>
      match dropLit idPre p1.2 with
      | none => none
      | some r2 =>
        match scanStr r2 with
        | none => none
        | some p2 =>
          match dropLit keyPre p2.2 with
          | none => none
          | some r3 =>
            match scanStr r3 with
            | none => none
            | some p3 =>
              match dropLit intentPost p3.2 with
              | none => none
              | some r4 => some (p1.1, p2.1, p3.1, r4)

/-- Modelled from the spec: parse the dgi object of the §4.D output shape,
returning (reference grammars, generic items, remainder); either branch
may be absent. -/
def parseDgi (cs : List Char) :
    Option (List (List Char) × List (List Char) × List Char) :=
  match dropLit ['\x7b'] cs with
  | none => none
  | some r0 =>
    match dropLit (groupsPre ++ typeGenericPre) r0 with
    | some r1 =>
      match parseItems r1 with
      | none => none
      | some q1 =>
        match dropLit itemsGroupsClose q1.2 with
        | none => none
        | some r3 =>
          match dropLit (',' :: refGramPre) r3 with
          | some r4 =>
            match parseGrammars r4 with
            | none => none
            | some q2 =>
              match dropLit (']' :: ['\x7d']) q2.2 with
              | none => none
              | some r6 => some (q2.1, q1.1, r6)
          | none =>
            match dropLit ['\x7d'] r3 with
            | none => none
            | some r6 => some ([], q1.1, r6)
    | none =>
      match dropLit refGramPre r0 with
      | none => none
      | some r4 =>
        match parseGrammars r4 with
        | none => none
        | some q2 =>
          match dropLit (']' :: ['\x7d']) q2.2 with
          | none => none
          | some r6 => some (q2.1, [], r6)

/-- Modelled from the spec: parse a whole speech.context payload back into
(reference grammars, generic items, provider, id, key).  The empty payload
— the omitted message — parses to all-empty. -/
def parseSpeechContext (cs : List Char) :
    Option (List (List Char) × List (List Char) ×
      List Char × List Char × List Char) :=
  match cs with
  | [] => some ([], [], [], [], [])
  | _ =>
    match dropLit ['\x7b'] cs with
    | none => none
    | some r0 =>
      match dropLit dgiKey r0 with
      | some r1 =>
        match parseDgi r1 with
        | none => none
        | some d =>
          match d.2.2 with
          | ',' :: r3 =>
            match dropLit intentKey r3 with
            | none => none
            | some r4 =>
              match parseIntent r4 with
              | none => none
              | some q =>
                match dropLit ['\x7d'] q.2.2.2 with
                | none => none
                | some [] => some (d.1, d.2.1, q.1, q.2.1, q.2.2.1)
                | some _ => none
          | _ =>
            match dropLit ['\x7d'] d.2.2 with
            | none => none
            | some [] => some (d.1, d.2.1, [], [], [])
            | some _ => none
      | none =>
        match dropLit intentKey r0 with
        | none => none
        | some r1 =>
          match parseIntent r1 with
          | none => none
          | some q =>
            match dropLit ['\x7d'] q.2.2.2 with
            | none => none
            | some [] => some ([], [], q.1, q.2.1, q.2.2.1)
            | some _ => none

/-- The speech.context payload built from a listen-for list and an intent
triple with both suppressors off. -/
def buildSpeechContext (listenForList : List (List Char))
    (provider id key : List Char) : List Char :=
  GetSpeechContextJson
    (GetDgiJsonFromListenForList listenForList false)
    (GetLanguageUnderstandingJsonFromIntentInfo provider id key false)

-- ## Theorems

/-- C8: for every format descriptor, the format-header writer produces a
byte sequence of exactly `12 + 8 + (14 + extra_bytes) + 8` bytes laid out
as `"RIFF" u32(0) "WAVE" "fmt " u32(14+extra) <format-bytes> "data"
u32(0)`, with both u32 size fields zero and every u32 little-endian. -/
theorem uspWriteFormat_spec (pformat : WAVEFORMATEX) :
    UspWriteFormat pformat =
      [82, 73, 70, 70] ++ u32le 0 ++ [87, 65, 86, 69] ++
        [102, 109, 116, 32] ++ u32le (14 + pformat.extra.length) ++
        (waveformatexBytes pformat).take (14 + pformat.extra.length) ++
        [100, 97, 116, 97] ++ u32le 0 ∧
    ((waveformatexBytes pformat).take (14 + pformat.extra.length)).length =
      14 + pformat.extra.length ∧
    u32le 0 = [0, 0, 0, 0] ∧
    (UspWriteFormat pformat).length =
      12 + 8 + (14 + pformat.extra.length) + 8 := by
  have hlen : (waveformatexBytes pformat).length = 18 + pformat.extra.length := by
    simp [waveformatexBytes, u16le, u32le]
    omega
  have htake : ((waveformatexBytes pformat).take
      (14 + pformat.extra.length)).length = 14 + pformat.extra.length := by
    rw [List.length_take, hlen]
    omega
  refine ⟨?_, htake, by simp [u32le], ?_⟩
  · simp [UspWriteFormat, FormatBufferWriteChars, FormatBufferWriteNumber,
      FormatBufferWriteBytes, asciiBytes]
  · simp only [UspWriteFormat, FormatBufferWriteChars, FormatBufferWriteNumber,
      FormatBufferWriteBytes, asciiBytes, List.length_append, List.length_map,
      htake]
    simp [u32le]

/-- C2: `ChangeState(from_audio, from_usp, to_audio, to_usp)` returns true
and commits the new state pair iff the current pair equals
`(from_audio, from_usp)` and either `from_usp` is none of Error, Zombie,
Terminating, or the transition is a usp self-loop, or it is
Error → Terminating, or Terminating → Zombie; when it returns false both
state variables are unchanged. -/
theorem changeState_correct (s : AdapterState) (fa : AudioState)
    (fu : UspState) (ta : AudioState) (tu : UspState) :
    ((ChangeState s fa fu ta tu).1 = true ↔
      (s.audioState = fa ∧ s.uspState = fu ∧
        ((fu ≠ UspState.Error ∧ fu ≠ UspState.Zombie ∧
          fu ≠ UspState.Terminating) ∨
         fu = tu ∨
         (fu = UspState.Error ∧ tu = UspState.Terminating) ∨
         (fu = UspState.Terminating ∧ tu = UspState.Zombie)))) ∧
    ((ChangeState s fa fu ta tu).1 = true →
      ((ChangeState s fa fu ta tu).2.audioState = ta ∧
       (ChangeState s fa fu ta tu).2.uspState = tu)) ∧
    ((ChangeState s fa fu ta tu).1 = false →
      (ChangeState s fa fu ta tu).2 = s) := by
  unfold ChangeState
  split
  · rename_i h
    refine ⟨?_, ?_, ?_⟩
    · simp only [true_iff]
      exact ⟨h.1.symm, h.2.1.symm, h.2.2⟩
    · intro _
      exact ⟨rfl, rfl⟩
    · intro h2
      exact absurd h2 (by simp)
  · rename_i h
    refine ⟨?_, ?_, ?_⟩
    · simp only [Bool.false_eq_true, false_iff]
      intro hc
      exact h ⟨hc.1.symm, hc.2.1.symm, hc.2.2⟩
    · intro h2
      exact absurd h2 (by simp)
    · intro _
      rfl

theorem uspWriteLoop_spec (frameSize : Nat) (input pending : List Nat)
    (hfs : 0 < frameSize) (hp : pending.length ≤ frameSize) :
    (UspWriteLoop frameSize input pending).1.flatten ++
      (UspWriteLoop frameSize input pending).2 = pending ++ input ∧
    (∀ f ∈ (UspWriteLoop frameSize input pending).1, f.length = frameSize) ∧
    (UspWriteLoop frameSize input pending).2.length < frameSize := by
  induction input, pending using UspWriteLoop.induct frameSize with
  | case1 pending hfull =>
    rw [UspWriteLoop, dif_pos hfull]
    simp [hfull.2, hfs]
  | case2 pending hfull a rest ih =>
    rw [UspWriteLoop, dif_pos hfull]
    have htk : ((a :: rest).take (min (a :: rest).length frameSize)).length ≤
        frameSize := by
      simp only [List.length_take]
      omega
    obtain ⟨ih1, ih2, ih3⟩ := ih htk
    refine ⟨?_, ?_, ?_⟩
    · simp only [List.flatten_cons, List.append_assoc, ih1]
      rw [List.take_append_drop]
    · intro f hf
      simp only [List.mem_cons] at hf
      rcases hf with hf | hf
      · simp [hf, hfull.2]
      · exact ih2 f hf
    · exact ih3
  | case3 pending hfull =>
    rw [UspWriteLoop, dif_neg hfull]
    have : pending.length < frameSize := by
      rcases Nat.lt_or_ge pending.length frameSize with h | h
      · exact h
      · exact absurd ⟨hfs, Nat.le_antisymm hp h⟩ hfull
    simp [this]
  | case4 pending hfull a rest h2 =>
    exact absurd ⟨hfs, Nat.le_antisymm hp h2⟩ hfull
  | case5 pending hfull a rest h2 ih =>
    rw [UspWriteLoop, dif_neg hfull, dif_neg h2]
    have htk : (pending ++ (a :: rest).take
        (min (a :: rest).length (frameSize - pending.length))).length ≤
          frameSize := by
      simp only [List.length_append, List.length_take]
      omega
    obtain ⟨ih1, ih2, ih3⟩ := ih htk
    refine ⟨?_, ?_, ?_⟩
    · rw [ih1]
      simp only [List.append_assoc]
      rw [List.take_append_drop]
    · exact ih2
    · exact ih3

theorem runWrites_spec (frameSize : Nat) (inputs : List (List Nat))
    (buf : Option (List Nat)) (hfs : 0 < frameSize)
    (hb : (buf.getD []).length < frameSize)
    (hne : ∀ l ∈ inputs, l ≠ []) :
    (runWrites frameSize inputs buf).1.flatten ++
      ((runWrites frameSize inputs buf).2.getD []) =
        (buf.getD []) ++ inputs.flatten ∧
    (∀ f ∈ (runWrites frameSize inputs buf).1, f.length = frameSize) ∧
    ((runWrites frameSize inputs buf).2.getD []).length < frameSize := by
  induction inputs generalizing buf with
  | nil => simpa [runWrites] using hb
  | cons inp rest ih =>
    have hinp : inp ≠ [] := hne inp (by simp)
    have hrest : ∀ l ∈ rest, l ≠ [] := fun l hl => hne l (by simp [hl])
    obtain ⟨l1, l2, l3⟩ := uspWriteLoop_spec frameSize inp (buf.getD [])
      hfs (Nat.le_of_lt hb)
    have hbuf : (UspWrite_Buffered frameSize buf inp) =
        ((UspWriteLoop frameSize inp (buf.getD [])).1,
          some (UspWriteLoop frameSize inp (buf.getD [])).2) := by
      simp [UspWrite_Buffered, hinp]
    obtain ⟨ih1, ih2, ih3⟩ := ih
      (some (UspWriteLoop frameSize inp (buf.getD [])).2) (by simpa using l3) hrest
    refine ⟨?_, ?_, ?_⟩
    · simp only [runWrites, hbuf, List.flatten_append, List.append_assoc]
      rw [ih1]
      simp only [Option.getD_some, List.flatten_cons]
      rw [← List.append_assoc, l1]
      simp
    · intro f hf
      simp only [runWrites, hbuf, List.mem_append] at hf
      rcases hf with hf | hf
      · exact l2 f hf
      · exact ih2 f hf
    · simpa [runWrites, hbuf] using ih3

/-- C3: for every sequence of `write(bytes, len > 0)` calls followed by a
flush on the chunking uploader with `frame_size > 0`, the concatenation of
the frames emitted to the session equals the concatenation of the input
bytes, and every emitted frame except possibly the final (flush-time) one
has length exactly `frame_size`. -/
theorem chunking_correct (frameSize : Nat) (inputs : List (List Nat))
    (hfs : 0 < frameSize) (hne : ∀ l ∈ inputs, l ≠ []) :
    (runChunkingSession frameSize inputs).1.flatten = inputs.flatten ∧
    ∀ f ∈ (runChunkingSession frameSize inputs).1.dropLast,
      f.length = frameSize := by
  obtain ⟨h1, h2, _⟩ := runWrites_spec frameSize inputs none hfs
    (by simp [hfs]) hne
  have hflush : UspWrite_Buffered frameSize (runWrites frameSize inputs none).2 [] =
      ([(runWrites frameSize inputs none).2.getD []], none) := by
    simp [UspWrite_Buffered]
  constructor
  · simp only [runChunkingSession, hflush, List.flatten_append, List.flatten_cons,
      List.flatten_nil, List.append_nil]
    simpa using h1
  · intro f hf
    simp only [runChunkingSession, hflush] at hf
    rw [List.dropLast_concat] at hf
    exact h2 f hf

/-- Witness for `chunking_correct` at `frame_size = 3` with writes
`[1,2]` then `[3,4,5]`. -/
theorem chunking_correct_witness :
    (runChunkingSession 3 [[1, 2], [3, 4, 5]]).1.flatten =
      [[1, 2], [3, 4, 5]].flatten ∧
    ∀ f ∈ (runChunkingSession 3 [[1, 2], [3, 4, 5]]).1.dropLast,
      f.length = 3 :=
  chunking_correct 3 [[1, 2], [3, 4, 5]] (by decide) (by decide)

/-- C10: a `speech_phrase` with recognition status Success arriving while
usp_state is WaitingForIntent (a previous phrase's intent response still
pending) is silently discarded: no state transition, no callback, and the
pending-phrase slot keeps its previous occupant. -/
theorem speechPhrase_droppedInWaitingForIntent (s : AdapterState)
    (message : SpeechPhraseMsg)
    (h : s.uspState = UspState.WaitingForIntent)
    (hm : message.recognitionStatus = RecognitionStatus.Success)
    (he : s.expectIntentResponse = true) :
    step s (Stimulus.speechPhrase message) = (s, []) := by
  simp [step, OnSpeechPhrase, IsBadState, h, ChangeStateUsp, ChangeState]

/-- Witness for `speechPhrase_droppedInWaitingForIntent` at a concrete
mid-intent state. -/
theorem speechPhrase_droppedInWaitingForIntent_witness :
    step { sendingIntentState with uspState := UspState.WaitingForIntent }
      (Stimulus.speechPhrase phraseMsg) =
      ({ sendingIntentState with uspState := UspState.WaitingForIntent }, []) :=
  speechPhrase_droppedInWaitingForIntent _ phraseMsg (by decide) (by decide)
    (by decide)

/-- C1 (code bug witness): on the intent path the site receives TWO
final_result callbacks.  `user_message("response")` completes the pending
phrase but leaves usp_state = WaitingForIntent, so the subsequent
`turn_end` takes the "intent never arrived" branch again and fires a
second final result built from the default-constructed slot. -/
theorem intentFinalResultDoubleFire :
    countFinalResults
      (runTrace sendingIntentState
        [Stimulus.speechPhrase phraseMsg,
         Stimulus.userMessage "response" "luis-json",
         Stimulus.turnEnd]).2 = 2 := by decide

/-- C4 (code bug witness): after `term()` the adapter is Zombie, yet a
translation-synthesis event still fires a site callback, because
`OnTranslationSynthesis` performs no state check at all. -/
theorem zombieStillFiresTranslationSynthesis :
    (step sendingState Stimulus.term).1.uspState = UspState.Zombie ∧
    (step (step sendingState Stimulus.term).1
        Stimulus.translationSynthesis).2 =
      [Call.site SiteCall.translationSynthesisResult] := by decide

/-- C5 counterexample: `set_format(fmt)` from `(Idle, Idle)` opens the
transport session immediately (`PrepareAudioReadyState` runs
`EnsureUspInit`, which connects), so the handle is present and a connect
was issued — refuting "leaves the session handle absent". -/
theorem setFormat_opensSessionNow :
    initialState.handle = false ∧
    (step initialState (Stimulus.setFormat (some fmt16k))).1.handle = true ∧
    (step initialState (Stimulus.setFormat (some fmt16k))).2 =
      [Call.usp UspCall.connect] := by decide

/-- C6 counterexample: `speech_end_detected` commits its single-shot
audio transition BEFORE the bad-state test, so in the bad state
`(Sending, Error)` the state pair changes (audio → Stopping), and the
unconditional flush still issues transport calls. -/
theorem badStateSpeechEndNotDropped :
    IsBadState errorSendingState = true ∧
    (step errorSendingState (Stimulus.speechEndDetected 0)).1.audioState =
      AudioState.Stopping ∧
    (step errorSendingState (Stimulus.speechEndDetected 0)).2 ≠ [] := by
  decide

/-- C6 (amended): in a bad state (`usp_state ∈ {Error, Terminating,
Zombie}`), every ingress operation and service-event handler other than
`term` leaves `usp_state` unchanged, and every stimulus other than `term`,
`set_format(null)`, `speech_end_detected`, `turn_end` and the two
translation-synthesis events is a complete no-op: state unchanged and no
site callback or transport call.  (The excluded handlers do not all test
the bad-state predicate first: `term` deliberately walks
Error → Terminating → Zombie; `set_format(null)` is accepted during
Terminating and fires `completed_set_format_stop`; `speech_end_detected`
and `turn_end` commit their audio-axis transitions before the test and
flush unconditionally; the translation-synthesis handlers have no state
check at all.) -/
theorem badState_gating (s : AdapterState) (stim : Stimulus)
    (hbad : IsBadState s = true) :
    (stim ≠ Stimulus.term → (step s stim).1.uspState = s.uspState) ∧
    (stimulusFullyGatedInBadState stim = true → step s stim = (s, [])) := by
  have hb : s.uspState = UspState.Error ∨ s.uspState = UspState.Terminating ∨
      s.uspState = UspState.Zombie := by
    simpa [IsBadState, decide_eq_true_eq] using hbad
  cases stim with
  | term =>
    exact ⟨fun h => absurd rfl h, by simp [stimulusFullyGatedInBadState]⟩
  | setFormat pformat =>
    cases pformat with
    | none =>
      refine ⟨fun _ => ?_, by simp [stimulusFullyGatedInBadState]⟩
      rcases hb with h | h | h <;>
        simp [step, SetFormat, IsBadState, h, ChangeStateAudioTo, ChangeState]
    | some fmt =>
      have hstep : step s (Stimulus.setFormat (some fmt)) = (s, []) := by
        rcases hb with h | h | h <;>
          simp [step, SetFormat, IsBadState, h, ChangeStateAudio, ChangeState]
      exact ⟨fun _ => by rw [hstep], fun _ => hstep⟩
  | processAudio data =>
    have hstep : step s (Stimulus.processAudio data) = (s, []) := by
      rcases hb with h | h | h <;> simp [step, ProcessAudio, IsBadState, h]
    exact ⟨fun _ => by rw [hstep], fun _ => hstep⟩
  | speechStartDetected offset =>
    have hstep : step s (Stimulus.speechStartDetected offset) = (s, []) := by
      rcases hb with h | h | h <;>
        simp [step, OnSpeechStartDetected, IsBadState, h]
    exact ⟨fun _ => by rw [hstep], fun _ => hstep⟩
  | speechEndDetected offset =>
    refine ⟨fun _ => ?_, by simp [stimulusFullyGatedInBadState]⟩
    rcases hb with h | h | h <;>
      cases hss : s.singleShot <;>
      cases ha : s.audioState <;>
      cases hh : s.handle <;>
        simp [step, OnSpeechEndDetected, IsBadState, h, hss, ha, hh,
          ChangeStateAudio, ChangeState, UspWrite_Flush, UspWrite_Buffered,
          UspWrite_Actual, IsStateBetweenIncluding, UspState.toNat]
  | speechHypothesis text offset json =>
    have hstep : step s (Stimulus.speechHypothesis text offset json) =
        (s, []) := by
      rcases hb with h | h | h <;>
        simp [step, OnSpeechHypothesis, IsBadState, h]
    exact ⟨fun _ => by rw [hstep], fun _ => hstep⟩
  | speechFragment text offset json =>
    have hstep : step s (Stimulus.speechFragment text offset json) =
        (s, []) := by
      rcases hb with h | h | h <;>
        simp [step, OnSpeechFragment, IsBadState, h, ChangeStateUsp,
          ChangeState]
    exact ⟨fun _ => by rw [hstep], fun _ => hstep⟩
  | speechPhrase message =>
    have hstep : step s (Stimulus.speechPhrase message) = (s, []) := by
      rcases hb with h | h | h <;>
        simp [step, OnSpeechPhrase, IsBadState, h, ChangeStateUsp, ChangeState]
    exact ⟨fun _ => by rw [hstep], fun _ => hstep⟩
  | translationHypothesis text offset json =>
    have hstep : step s (Stimulus.translationHypothesis text offset json) =
        (s, []) := by
      rcases hb with h | h | h <;>
        simp [step, OnTranslationHypothesis, IsBadState, h]
    exact ⟨fun _ => by rw [hstep], fun _ => hstep⟩
  | translationPhrase text offset json =>
    have hstep : step s (Stimulus.translationPhrase text offset json) =
        (s, []) := by
      rcases hb with h | h | h <;>
        simp [step, OnTranslationPhrase, IsBadState, h, ChangeStateUsp,
          ChangeState]
    exact ⟨fun _ => by rw [hstep], fun _ => hstep⟩
  | translationSynthesis =>
    exact ⟨fun _ => rfl, by simp [stimulusFullyGatedInBadState]⟩
  | translationSynthesisEnd =>
    exact ⟨fun _ => rfl, by simp [stimulusFullyGatedInBadState]⟩
  | turnStart tag =>
    have hstep : step s (Stimulus.turnStart tag) = (s, []) := by
      rcases hb with h | h | h <;>
        simp [step, OnTurnStart, IsBadState, h, ChangeStateUsp, ChangeState]
    exact ⟨fun _ => by rw [hstep], fun _ => hstep⟩
  | turnEnd =>
    refine ⟨fun _ => ?_, by simp [stimulusFullyGatedInBadState]⟩
    rcases hb with h | h | h <;>
      cases hss : s.singleShot <;>
      cases ha : s.audioState <;>
      cases hh : s.handle <;>
        simp [step, OnTurnEnd, IsBadState, h, hss, ha, hh, ChangeStateAudio,
          ChangeStateUsp, ChangeState, IsInteractiveMode, UspWrite_Flush,
          UspWrite_Buffered, UspWrite_Actual, PrepareAudioReadyState,
          EnsureUspInit, UspInitialize]
  | serviceError message =>
    have hstep : step s (Stimulus.serviceError message) = (s, []) := by
      rcases hb with h | h | h <;> simp [step, OnError, IsBadState, h]
    exact ⟨fun _ => by rw [hstep], fun _ => hstep⟩
  | userMessage path buffer =>
    have hstep : step s (Stimulus.userMessage path buffer) = (s, []) := by
      rcases hb with h | h | h <;> simp [step, OnUserMessage, h]
    exact ⟨fun _ => by rw [hstep], fun _ => hstep⟩

/-- Witness for `badState_gating`: a process_audio stimulus arriving in
the bad state `(Sending, Error)`. -/
theorem badState_gating_witness :
    (Stimulus.processAudio [1] ≠ Stimulus.term →
      (step errorSendingState (Stimulus.processAudio [1])).1.uspState =
        errorSendingState.uspState) ∧
    (stimulusFullyGatedInBadState (Stimulus.processAudio [1]) = true →
      step errorSendingState (Stimulus.processAudio [1]) =
        (errorSendingState, [])) :=
  badState_gating errorSendingState (Stimulus.processAudio [1]) (by decide)

/-- C5 (amended): `set_format(fmt)` with a non-null format in state
`(Idle, Idle)` stores the format and moves audio_state to Ready, but it
also immediately ensures the transport session is open
(`PrepareAudioReadyState` runs `EnsureUspInit`, connecting when the
handle was absent) — the network is touched at set_format time, not at
the first audio; a following `set_format(null)` fires
`completed_set_format_stop` and issues no transport call itself. -/
theorem setFormat_preparesReadyState (s : AdapterState) (fmt : WAVEFORMATEX)
    (ha : s.audioState = AudioState.Idle) (hu : s.uspState = UspState.Idle) :
    (step s (Stimulus.setFormat (some fmt))).1.format = some fmt ∧
    (step s (Stimulus.setFormat (some fmt))).1.audioState = AudioState.Ready ∧
    (step s (Stimulus.setFormat (some fmt))).1.uspState = UspState.Idle ∧
    (step s (Stimulus.setFormat (some fmt))).1.handle = true ∧
    (step s (Stimulus.setFormat (some fmt))).2 =
      (if s.handle then [] else [Call.usp UspCall.connect]) ∧
    (step (step s (Stimulus.setFormat (some fmt))).1
        (Stimulus.setFormat none)).2 =
      [Call.site SiteCall.completedSetFormatStop] := by
  cases hh : s.handle <;>
    simp [step, SetFormat, IsBadState, ha, hu, hh, ChangeStateAudio,
      ChangeStateAudioTo, ChangeState, PrepareFirstAudioReadyState,
      PrepareAudioReadyState, EnsureUspInit, UspInitialize]

/-- Witness for `setFormat_preparesReadyState` at the freshly initialized
adapter with the 16 kHz format. -/
theorem setFormat_preparesReadyState_witness :
    (step initialState (Stimulus.setFormat (some fmt16k))).1.format =
      some fmt16k ∧
    (step initialState (Stimulus.setFormat (some fmt16k))).1.audioState =
      AudioState.Ready ∧
    (step initialState (Stimulus.setFormat (some fmt16k))).1.uspState =
      UspState.Idle ∧
    (step initialState (Stimulus.setFormat (some fmt16k))).1.handle = true ∧
    (step initialState (Stimulus.setFormat (some fmt16k))).2 =
      (if initialState.handle then [] else [Call.usp UspCall.connect]) ∧
    (step (step initialState (Stimulus.setFormat (some fmt16k))).1
        (Stimulus.setFormat none)).2 =
      [Call.site SiteCall.completedSetFormatStop] :=
  setFormat_preparesReadyState initialState fmt16k (by decide) (by decide)

theorem intentJson_ne_nil_iff (provider id key : List Char)
    (noIntentJson : Bool) :
    GetLanguageUnderstandingJsonFromIntentInfo provider id key noIntentJson ≠
        [] ↔
      (provider ≠ [] ∧ id ≠ [] ∧ key ≠ [] ∧ noIntentJson = false) := by
  cases noIntentJson with
  | true => simp [GetLanguageUnderstandingJsonFromIntentInfo]
  | false =>
    simp only [GetLanguageUnderstandingJsonFromIntentInfo, if_false,
      Bool.false_eq_true]
    split
    · rename_i hc
      cases hpe : providerPre with
      | nil => exact absurd hpe (by decide)
      | cons c cs => simp [hpe, hc]
    · rename_i hc
      constructor
      · intro h
        exact absurd rfl h
      · intro h
        exact absurd ⟨h.1, h.2.1, h.2.2.1⟩ hc

theorem speechContextJson_nil_iff (dgiJson intentJson : List Char) :
    GetSpeechContextJson dgiJson intentJson = [] ↔
      (dgiJson = [] ∧ intentJson = []) := by
  unfold GetSpeechContextJson
  split
  · rename_i hc
    constructor
    · intro h
      exact absurd h (List.cons_ne_nil _ _)
    · intro h
      rcases hc with hc | hc
      · exact absurd h.1 hc
      · exact absurd h.2 hc
  · rename_i hc
    push_neg at hc
    simp [hc.1, hc.2]

/-- C7: the serialized speech.context payload contains the intent branch
iff provider, id and key are all non-empty and no_intent_json is false;
the dgi branch is suppressed (blanked) when no_dgi is true; the message
is sent iff at least one branch is non-empty; and expect_intent_response
is set exactly when the intent payload is non-empty. -/
theorem speechContext_spec (s : AdapterState) (hh : s.handle = true)
    (ht : s.uspState ≠ UspState.Terminating)
    (hz : s.uspState ≠ UspState.Zombie) :
    (GetLanguageUnderstandingJsonFromIntentInfo s.intentProvider s.intentId
        s.intentKey s.noIntentJson ≠ [] ↔
      (s.intentProvider ≠ [] ∧ s.intentId ≠ [] ∧ s.intentKey ≠ [] ∧
        s.noIntentJson = false)) ∧
    (s.noDgi = true →
      GetDgiJsonFromListenForList s.listenForList s.noDgi = []) ∧
    ((UspSendSpeechContext s).2 ≠ [] ↔
      (GetDgiJsonFromListenForList s.listenForList s.noDgi ≠ [] ∨
       GetLanguageUnderstandingJsonFromIntentInfo s.intentProvider s.intentId
         s.intentKey s.noIntentJson ≠ [])) ∧
    ((UspSendSpeechContext s).1.expectIntentResponse = true ↔
      GetLanguageUnderstandingJsonFromIntentInfo s.intentProvider s.intentId
        s.intentKey s.noIntentJson ≠ []) := by
  refine ⟨intentJson_ne_nil_iff _ _ _ _, fun h => by
    simp [GetDgiJsonFromListenForList, h], ?_, ?_⟩
  · simp only [UspSendSpeechContext]
    split
    · rename_i hc
      have : (GetDgiJsonFromListenForList s.listenForList s.noDgi ≠ [] ∨
          GetLanguageUnderstandingJsonFromIntentInfo s.intentProvider
            s.intentId s.intentKey s.noIntentJson ≠ []) := by
        by_contra hcon
        push_neg at hcon
        exact hc ((speechContextJson_nil_iff _ _).2 ⟨hcon.1, hcon.2⟩)
      simp [UspSendMessage, ht, hz, hh, this]
    · rename_i hc
      have hnil := not_not.1 (fun hne => hc hne)
      have := (speechContextJson_nil_iff _ _).1 hnil
      simp [this.1, this.2]
  · simp only [UspSendSpeechContext]
    split <;>
      simp [List.isEmpty_iff]

/-- Witness for `speechContext_spec` at the mid-turn intent-enabled
state. -/
theorem speechContext_spec_witness :
    (GetLanguageUnderstandingJsonFromIntentInfo sendingIntentState.intentProvider
        sendingIntentState.intentId sendingIntentState.intentKey
        sendingIntentState.noIntentJson ≠ [] ↔
      (sendingIntentState.intentProvider ≠ [] ∧
        sendingIntentState.intentId ≠ [] ∧
        sendingIntentState.intentKey ≠ [] ∧
        sendingIntentState.noIntentJson = false)) ∧
    (sendingIntentState.noDgi = true →
      GetDgiJsonFromListenForList sendingIntentState.listenForList
        sendingIntentState.noDgi = []) ∧
    ((UspSendSpeechContext sendingIntentState).2 ≠ [] ↔
      (GetDgiJsonFromListenForList sendingIntentState.listenForList
          sendingIntentState.noDgi ≠ [] ∨
       GetLanguageUnderstandingJsonFromIntentInfo
         sendingIntentState.intentProvider sendingIntentState.intentId
         sendingIntentState.intentKey sendingIntentState.noIntentJson ≠ [])) ∧
    ((UspSendSpeechContext sendingIntentState).1.expectIntentResponse = true ↔
      GetLanguageUnderstandingJsonFromIntentInfo
        sendingIntentState.intentProvider sendingIntentState.intentId
        sendingIntentState.intentKey sendingIntentState.noIntentJson ≠ []) :=
  speechContext_spec sendingIntentState (by decide) (by decide) (by decide)

/-- Witness for `changeState_correct`: the turn-opening transition from a
freshly initialized adapter. -/
theorem changeState_correct_witness :
    ((ChangeState initialState AudioState.Ready UspState.Idle
        AudioState.Sending UspState.WaitingForTurnStart).1 = true ↔
      (initialState.audioState = AudioState.Ready ∧
        initialState.uspState = UspState.Idle ∧
        ((UspState.Idle ≠ UspState.Error ∧ UspState.Idle ≠ UspState.Zombie ∧
          UspState.Idle ≠ UspState.Terminating) ∨
         UspState.Idle = UspState.WaitingForTurnStart ∨
         (UspState.Idle = UspState.Error ∧
           UspState.WaitingForTurnStart = UspState.Terminating) ∨
         (UspState.Idle = UspState.Terminating ∧
           UspState.WaitingForTurnStart = UspState.Zombie)))) ∧
    ((ChangeState initialState AudioState.Ready UspState.Idle
        AudioState.Sending UspState.WaitingForTurnStart).1 = true →
      ((ChangeState initialState AudioState.Ready UspState.Idle
          AudioState.Sending UspState.WaitingForTurnStart).2.audioState =
            AudioState.Sending ∧
       (ChangeState initialState AudioState.Ready UspState.Idle
          AudioState.Sending UspState.WaitingForTurnStart).2.uspState =
            UspState.WaitingForTurnStart)) ∧
    ((ChangeState initialState AudioState.Ready UspState.Idle
        AudioState.Sending UspState.WaitingForTurnStart).1 = false →
      (ChangeState initialState AudioState.Ready UspState.Idle
        AudioState.Sending UspState.WaitingForTurnStart).2 = initialState) :=
  changeState_correct initialState AudioState.Ready UspState.Idle
    AudioState.Sending UspState.WaitingForTurnStart

/-- C9 counterexample: the builder is not injective on intent triples, so
no parser can round-trip every triple.  With the partially-empty triple
`("x", "", "")` the intent branch is omitted entirely: the payload equals
the one built from the all-empty triple, and parsing yields the empty
triple, not `("x", "", "")`. -/
theorem speechContextRoundTrip_failsOnPartialTriple :
    buildSpeechContext [] (['x']) [] [] = buildSpeechContext [] [] [] [] ∧
    parseSpeechContext (buildSpeechContext [] (['x']) [] []) =
      some ([], [], [], [], []) ∧
    (['x'] : List Char) ≠ [] := by decide

theorem dropLit_append (lit rest : List Char) :
    dropLit lit (lit ++ rest) = some rest := by
  induction lit with
  | nil => rfl
  | cons c cs ih => simp [dropLit, ih]

theorem dropLit_some_iff (lit xs r : List Char) :
    dropLit lit xs = some r ↔ xs = lit ++ r := by
  induction lit generalizing xs with
  | nil => simp [dropLit, eq_comm]
  | cons c cs ih =>
    cases xs with
    | nil => simp [dropLit]
    | cons x xxs =>
      simp only [dropLit]
      split
      · rename_i hcx
        subst hcx
        simp [ih]
      · rename_i hcx
        constructor
        · intro h
          exact absurd h (by simp)
        · intro h
          exact absurd (List.cons.inj h).1.symm hcx

theorem scanStr_round (a r : List Char) (ha : '"' ∉ a) :
    scanStr (a ++ '"' :: r) = some (a, '"' :: r) := by
  induction a with
  | nil => simp [scanStr]
  | cons c cs ih =>
    have hc : ¬ c = '"' := fun h => ha (by simp [h])
    have ha2 : '"' ∉ cs := fun h => ha (List.mem_cons_of_mem _ h)
    simp only [List.cons_append, scanStr, if_neg hc]
    simp [List.append_eq, ih ha2]

theorem joinComma_length_ge (ps : List (List Char))
    (h : ∀ p ∈ ps, 1 ≤ p.length) : ps.length ≤ (joinComma ps).length := by
  induction ps with
  | nil => simp [joinComma]
  | cons x xs ih =>
    cases xs with
    | nil => simpa [joinComma] using h x (by simp)
    | cons y ys =>
      have hx := h x (by simp)
      have hys := ih (fun p hp => h p (by simp [hp]))
      simp only [joinComma, List.length_append, List.length_cons] at *
      omega

theorem parseItemsF_round (items : List (List Char)) :
    ∀ (fuel : Nat) (r' : List Char), items ≠ [] → items.length ≤ fuel →
    (∀ i ∈ items, '"' ∉ i) →
    parseItemsF fuel (joinComma (items.map wrapItem) ++ ']' :: r') =
      some (items, ']' :: r') := by
  induction items with
  | nil => intro fuel r' hne _ _; exact absurd rfl hne
  | cons i rest ih =>
    intro fuel r' _ hfuel hq
    cases fuel with
    | zero => simp at hfuel
    | succ f =>
      have hqi : '"' ∉ i := hq i (by simp)
      cases rest with
      | nil =>
        simp only [List.map_cons, List.map_nil, joinComma]
        have h1 : dropLit itemPre (wrapItem i ++ ']' :: r') =
            some (i ++ '"' :: '\x7d' :: ']' :: r') := by
          rw [dropLit_some_iff]
          simp [wrapItem, itemPost, List.append_assoc]
        have h2 : scanStr (i ++ '"' :: '\x7d' :: ']' :: r') =
            some (i, '"' :: '\x7d' :: ']' :: r') :=
          scanStr_round i ('\x7d' :: ']' :: r') hqi
        have h3 : dropLit itemPost ('"' :: '\x7d' :: ']' :: r') =
            some (']' :: r') := by
          simp [itemPost, dropLit]
        simp [parseItemsF, h1, h2, h3]
      | cons j rest2 =>
        have hq2 : ∀ x ∈ j :: rest2, '"' ∉ x := fun x hx => hq x (by simp [hx])
        have hf2 : (j :: rest2).length ≤ f := by simpa using hfuel
        have ihh := ih f r' (by simp) hf2 hq2
        simp only [List.map_cons] at ihh ⊢
        simp only [joinComma]
        have h1 : dropLit itemPre
            (wrapItem i ++ ',' ::
              (joinComma (wrapItem j :: rest2.map wrapItem) ++ ']' :: r')) =
            some (i ++ '"' :: '\x7d' :: ',' ::
              (joinComma (wrapItem j :: rest2.map wrapItem) ++ ']' :: r')) := by
          rw [dropLit_some_iff]
          simp [wrapItem, itemPost, List.append_assoc]
        have h2 : scanStr (i ++ '"' :: '\x7d' :: ',' ::
            (joinComma (wrapItem j :: rest2.map wrapItem) ++ ']' :: r')) =
            some (i, '"' :: '\x7d' :: ',' ::
              (joinComma (wrapItem j :: rest2.map wrapItem) ++ ']' :: r')) :=
          scanStr_round i _ hqi
        have h3 : dropLit itemPost ('"' :: '\x7d' :: ',' ::
            (joinComma (wrapItem j :: rest2.map wrapItem) ++ ']' :: r')) =
            some (',' ::
              (joinComma (wrapItem j :: rest2.map wrapItem) ++ ']' :: r')) := by
          simp [itemPost, dropLit]
        simp [parseItemsF, h1, h2, h3, ihh]

theorem parseGrammarsF_round (grammars : List (List Char)) :
    ∀ (fuel : Nat) (r' : List Char), grammars ≠ [] →
    grammars.length ≤ fuel → (∀ g ∈ grammars, '"' ∉ g) →
    parseGrammarsF fuel (joinComma (grammars.map wrapGrammar) ++ ']' :: r') =
      some (grammars, ']' :: r') := by
  induction grammars with
  | nil => intro fuel r' hne _ _; exact absurd rfl hne
  | cons g rest ih =>
    intro fuel r' _ hfuel hq
    cases fuel with
    | zero => simp at hfuel
    | succ f =>
      have hqg : '"' ∉ g := hq g (by simp)
      cases rest with
      | nil =>
        simp only [List.map_cons, List.map_nil, joinComma]
        have h1 : dropLit ['"'] (wrapGrammar g ++ ']' :: r') =
            some (g ++ '"' :: ']' :: r') := by
          rw [dropLit_some_iff]
          simp [wrapGrammar]
        have h2 : scanStr (g ++ '"' :: ']' :: r') =
            some (g, '"' :: ']' :: r') :=
          scanStr_round g (']' :: r') hqg
        have h3 : dropLit ['"'] ('"' :: ']' :: r') = some (']' :: r') := by
          simp [dropLit]
        simp [parseGrammarsF, h1, h2, h3]
      | cons g2 rest2 =>
        have hq2 : ∀ x ∈ g2 :: rest2, '"' ∉ x := fun x hx => hq x (by simp [hx])
        have hf2 : (g2 :: rest2).length ≤ f := by simpa using hfuel
        have ihh := ih f r' (by simp) hf2 hq2
        simp only [List.map_cons] at ihh ⊢
        simp only [joinComma]
        have h1 : dropLit ['"']
            (wrapGrammar g ++ ',' ::
              (joinComma (wrapGrammar g2 :: rest2.map wrapGrammar) ++
                ']' :: r')) =
            some (g ++ '"' :: ',' ::
              (joinComma (wrapGrammar g2 :: rest2.map wrapGrammar) ++
                ']' :: r')) := by
          rw [dropLit_some_iff]
          simp [wrapGrammar]
        have h2 : scanStr (g ++ '"' :: ',' ::
            (joinComma (wrapGrammar g2 :: rest2.map wrapGrammar) ++
              ']' :: r')) =
            some (g, '"' :: ',' ::
              (joinComma (wrapGrammar g2 :: rest2.map wrapGrammar) ++
                ']' :: r')) :=
          scanStr_round g _ hqg
        have h3 : dropLit ['"'] ('"' :: ',' ::
            (joinComma (wrapGrammar g2 :: rest2.map wrapGrammar) ++
              ']' :: r')) =
            some (',' ::
              (joinComma (wrapGrammar g2 :: rest2.map wrapGrammar) ++
                ']' :: r')) := by
          simp [dropLit]
        simp [parseGrammarsF, h1, h2, h3, ihh]

theorem replaceFirstColon_noQuote (l : List Char) (h : '"' ∉ l) :
    '"' ∉ replaceFirstColon l := by
  induction l with
  | nil => simp [replaceFirstColon]
  | cons c cs ih =>
    have h1 : ¬ ('"' : Char) = c := fun hc => h (by rw [hc]; exact List.mem_cons_self c cs)
    have h2 : '"' ∉ cs := fun hm => h (List.mem_cons_of_mem _ hm)
    simp only [replaceFirstColon]
    split
    · simp only [List.mem_cons]
      push_neg
      exact ⟨by decide, h2⟩
    · simp only [List.mem_cons]
      push_neg
      exact ⟨h1, ih h2⟩

theorem referenceGrammarOf_noQuote (e : List Char) (h : '"' ∉ e) :
    '"' ∉ referenceGrammarOf e := by
  unfold referenceGrammarOf
  apply replaceFirstColon_noQuote
  intro hm
  exact h (List.drop_subset 1 e (List.take_subset _ _ hm))

theorem classify_noQuote (l : List (List Char)) (hq : ∀ e ∈ l, '"' ∉ e) :
    (∀ g ∈ (classifyListenForList l).1, '"' ∉ g) ∧
    (∀ x ∈ (classifyListenForList l).2, '"' ∉ x) := by
  induction l with
  | nil => simp [classifyListenForList]
  | cons e rest ih =>
    have hqe : '"' ∉ e := hq e (by simp)
    have ihh := ih (fun x hx => hq x (by simp [hx]))
    simp only [classifyListenForList]
    split
    · constructor
      · intro g hg
        simp only [List.mem_cons] at hg
        rcases hg with hg | hg
        · subst hg
          exact referenceGrammarOf_noQuote e hqe
        · exact ihh.1 g hg
      · exact ihh.2
    · constructor
      · exact ihh.1
      · intro x hx
        simp only [List.mem_cons] at hx
        rcases hx with hx | hx
        · subst hx
          exact hqe
        · exact ihh.2 x hx

theorem parseItems_round (items : List (List Char)) (r' : List Char)
    (hne : items ≠ []) (hq : ∀ i ∈ items, '"' ∉ i) :
    parseItems (joinComma (items.map wrapItem) ++ ']' :: r') =
      some (items, ']' :: r') := by
  have hpieces : ∀ p ∈ items.map wrapItem, 1 ≤ p.length := by
    intro p hp
    rcases List.mem_map.1 hp with ⟨i, _, rfl⟩
    simp only [wrapItem, List.length_append, itemPre, itemPost,
      List.length_cons, List.length_nil]
    omega
  have h1 := joinComma_length_ge (items.map wrapItem) hpieces
  rw [List.length_map] at h1
  unfold parseItems
  exact parseItemsF_round items _ r' hne
    (by simp only [List.length_append]; omega) hq

theorem parseGrammars_round (grammars : List (List Char)) (r' : List Char)
    (hne : grammars ≠ []) (hq : ∀ g ∈ grammars, '"' ∉ g) :
    parseGrammars (joinComma (grammars.map wrapGrammar) ++ ']' :: r') =
      some (grammars, ']' :: r') := by
  have hpieces : ∀ p ∈ grammars.map wrapGrammar, 1 ≤ p.length := by
    intro p hp
    rcases List.mem_map.1 hp with ⟨g, _, rfl⟩
    simp only [wrapGrammar, List.length_append, List.length_cons,
      List.length_nil]
    omega
  have h1 := joinComma_length_ge (grammars.map wrapGrammar) hpieces
  rw [List.length_map] at h1
  unfold parseGrammars
  exact parseGrammarsF_round grammars _ r' hne
    (by simp only [List.length_append]; omega) hq

theorem parseIntent_round (p i k r : List Char) (hp : '"' ∉ p)
    (hi : '"' ∉ i) (hk : '"' ∉ k) :
    parseIntent ((providerPre ++ p ++ idPre ++ i ++ keyPre ++ k ++
      intentPost) ++ r) = some (p, i, k, r) := by
  have h1 : dropLit providerPre
      (providerPre ++ (p ++ (idPre ++ (i ++ (keyPre ++ (k ++
        (intentPost ++ r))))))) =
      some (p ++ '"' :: ',' :: '"' :: 'i' :: 'd' :: '"' :: ':' :: '"' ::
        (i ++ '"' :: ',' :: '"' :: 'k' :: 'e' :: 'y' :: '"' :: ':' :: '"' ::
          (k ++ '"' :: '\x7d' :: r))) := by
    rw [dropLit_some_iff]
    simp [idPre, keyPre, intentPost, List.append_assoc]
  have h2 := scanStr_round p (',' :: '"' :: 'i' :: 'd' :: '"' :: ':' :: '"' ::
    (i ++ '"' :: ',' :: '"' :: 'k' :: 'e' :: 'y' :: '"' :: ':' :: '"' ::
      (k ++ '"' :: '\x7d' :: r))) hp
  have h3 : dropLit idPre ('"' :: ',' :: '"' :: 'i' :: 'd' :: '"' :: ':' ::
      '"' :: (i ++ '"' :: ',' :: '"' :: 'k' :: 'e' :: 'y' :: '"' :: ':' ::
        '"' :: (k ++ '"' :: '\x7d' :: r))) =
      some (i ++ '"' :: ',' :: '"' :: 'k' :: 'e' :: 'y' :: '"' :: ':' :: '"' ::
        (k ++ '"' :: '\x7d' :: r)) := by
    simp [idPre, dropLit]
  have h4 := scanStr_round i (',' :: '"' :: 'k' :: 'e' :: 'y' :: '"' :: ':' ::
    '"' :: (k ++ '"' :: '\x7d' :: r)) hi
  have h5 : dropLit keyPre ('"' :: ',' :: '"' :: 'k' :: 'e' :: 'y' :: '"' ::
      ':' :: '"' :: (k ++ '"' :: '\x7d' :: r)) =
      some (k ++ '"' :: '\x7d' :: r) := by
    simp [keyPre, dropLit]
  have h6 := scanStr_round k ('\x7d' :: r) hk
  have h7 : dropLit intentPost ('"' :: '\x7d' :: r) = some r := by
    simp [intentPost, dropLit]
  simp [parseIntent, h1, h2, h3, h4, h5, h6, h7]

theorem dgiJson_nil_iff (l : List (List Char)) :
    GetDgiJsonFromListenForList l false = [] ↔
      ((classifyListenForList l).1 = [] ∧
        (classifyListenForList l).2 = []) := by
  simp only [GetDgiJsonFromListenForList, Bool.false_eq_true, if_false]
  split
  · rename_i hc
    constructor
    · intro h
      exact absurd h (List.cons_ne_nil _ _)
    · intro h
      rcases hc with hc | hc
      · rw [h.1] at hc
        simp at hc
      · rw [h.2] at hc
        simp at hc
  · rename_i hc
    push_neg at hc
    simp only [true_iff]
    exact ⟨List.length_eq_zero.1 (by omega), List.length_eq_zero.1 (by omega)⟩

theorem dropLit_mismatch (lit xs : List Char)
    (h : xs.take 2 ≠ lit.take 2) (hlit : 2 ≤ lit.length) :
    dropLit lit xs = none := by
  cases hd : dropLit lit xs with
  | none => rfl
  | some t =>
    exfalso
    apply h
    rw [(dropLit_some_iff _ _ _).1 hd, List.take_append_of_le_length hlit]

theorem parseDgi_round (l : List (List Char)) (r : List Char)
    (hq : ∀ e ∈ l, '"' ∉ e)
    (hne : ¬((classifyListenForList l).1 = [] ∧
      (classifyListenForList l).2 = [])) :
    parseDgi (GetDgiJsonFromListenForList l false ++ r) =
      some ((classifyListenForList l).1, (classifyListenForList l).2, r) := by
  obtain ⟨hqG, hqIT⟩ := classify_noQuote l hq
  rcases hcr : classifyListenForList l with ⟨G, IT⟩
  rw [hcr] at hqG hqIT hne
  simp only at hqG hqIT hne
  by_cases hIT : IT = []
  · have hG : G ≠ [] := fun h => hne ⟨h, hIT⟩
    have hGlen : 0 < G.length := List.length_pos.2 hG
    subst hIT
    simp only [GetDgiJsonFromListenForList, hcr, Bool.false_eq_true, if_false,
      List.length_nil, gt_iff_lt, Nat.lt_irrefl, hGlen, or_false, if_true,
      List.nil_append, List.append_assoc, List.cons_append, if_pos]
    have h0 : dropLit ['\x7b'] ('\x7b' :: (refGramPre ++
        (joinComma (G.map wrapGrammar) ++ ']' :: '\x7d' :: r))) =
        some (refGramPre ++
          (joinComma (G.map wrapGrammar) ++ ']' :: '\x7d' :: r)) := by
      simp [dropLit]
    have hmx : dropLit (groupsPre ++ typeGenericPre) (refGramPre ++
        (joinComma (G.map wrapGrammar) ++ ']' :: '\x7d' :: r)) = none := by
      apply dropLit_mismatch
      · rw [List.take_append_of_le_length (by decide)]
        decide
      · decide
    have h2 : dropLit refGramPre (refGramPre ++
        (joinComma (G.map wrapGrammar) ++ ']' :: '\x7d' :: r)) =
        some (joinComma (G.map wrapGrammar) ++ ']' :: '\x7d' :: r) :=
      dropLit_append _ _
    have h3 := parseGrammars_round G ('\x7d' :: r) hG hqG
    have h4 : dropLit (']' :: ['\x7d']) (']' :: '\x7d' :: r) = some r := by
      simp [dropLit]
    simp [parseDgi, h0, hmx, h2, h3, h4]
  · have hITlen : 0 < IT.length := List.length_pos.2 hIT
    by_cases hG : G = []
    · subst hG
      simp only [GetDgiJsonFromListenForList, hcr, Bool.false_eq_true,
        if_false, List.length_nil, gt_iff_lt, Nat.lt_irrefl, hITlen, or_true,
        true_or, if_true, List.nil_append, List.append_nil, itemsGroupsClose,
        List.append_assoc, List.cons_append, if_pos]
      have h0 : dropLit ['\x7b'] ('\x7b' :: (groupsPre ++ (typeGenericPre ++
          (joinComma (IT.map wrapItem) ++
            ']' :: '\x7d' :: ']' :: '\x7d' :: r)))) =
          some (groupsPre ++ (typeGenericPre ++
            (joinComma (IT.map wrapItem) ++
              ']' :: '\x7d' :: ']' :: '\x7d' :: r))) := by
        simp [dropLit]
      have h1 : dropLit (groupsPre ++ typeGenericPre) (groupsPre ++
          (typeGenericPre ++ (joinComma (IT.map wrapItem) ++
            ']' :: '\x7d' :: ']' :: '\x7d' :: r))) =
          some (joinComma (IT.map wrapItem) ++
            ']' :: '\x7d' :: ']' :: '\x7d' :: r) := by
        rw [dropLit_some_iff]
        simp [List.append_assoc]
      have h2 := parseItems_round IT ('\x7d' :: ']' :: '\x7d' :: r) hIT hqIT
      have h3 : dropLit itemsGroupsClose
          (']' :: '\x7d' :: ']' :: '\x7d' :: r) = some ('\x7d' :: r) := by
        simp [itemsGroupsClose, dropLit]
      have h4 : dropLit (',' :: refGramPre) ('\x7d' :: r) = none := by
        simp [dropLit]
      have h5 : dropLit ['\x7d'] ('\x7d' :: r) = some r := by
        simp [dropLit]
      simp [parseDgi, h0, h1, h2, h3, h4, h5]
    · have hGlen : 0 < G.length := List.length_pos.2 hG
      simp only [GetDgiJsonFromListenForList, hcr, Bool.false_eq_true,
        if_false, gt_iff_lt, hITlen, hGlen, or_true, true_or, if_true,
        List.nil_append, itemsGroupsClose, List.append_assoc,
        List.cons_append, if_pos]
      have h0 : dropLit ['\x7b'] ('\x7b' :: (groupsPre ++ (typeGenericPre ++
          (joinComma (IT.map wrapItem) ++ ']' :: '\x7d' :: ']' :: ',' ::
            (refGramPre ++ (joinComma (G.map wrapGrammar) ++
              ']' :: '\x7d' :: r)))))) =
          some (groupsPre ++ (typeGenericPre ++
            (joinComma (IT.map wrapItem) ++ ']' :: '\x7d' :: ']' :: ',' ::
              (refGramPre ++ (joinComma (G.map wrapGrammar) ++
                ']' :: '\x7d' :: r))))) := by
        simp [dropLit]
      have h1 : dropLit (groupsPre ++ typeGenericPre) (groupsPre ++
          (typeGenericPre ++ (joinComma (IT.map wrapItem) ++
            ']' :: '\x7d' :: ']' :: ',' :: (refGramPre ++
              (joinComma (G.map wrapGrammar) ++ ']' :: '\x7d' :: r))))) =
          some (joinComma (IT.map wrapItem) ++ ']' :: '\x7d' :: ']' :: ',' ::
            (refGramPre ++ (joinComma (G.map wrapGrammar) ++
              ']' :: '\x7d' :: r))) := by
        rw [dropLit_some_iff]
        simp [List.append_assoc]
      have h2 := parseItems_round IT ('\x7d' :: ']' :: ',' :: (refGramPre ++
        (joinComma (G.map wrapGrammar) ++ ']' :: '\x7d' :: r))) hIT hqIT
      have h3 : dropLit itemsGroupsClose (']' :: '\x7d' :: ']' :: ',' ::
          (refGramPre ++ (joinComma (G.map wrapGrammar) ++
            ']' :: '\x7d' :: r))) =
          some (',' :: (refGramPre ++ (joinComma (G.map wrapGrammar) ++
            ']' :: '\x7d' :: r))) := by
        simp [itemsGroupsClose, dropLit]
      have h4 : dropLit (',' :: refGramPre) (',' :: (refGramPre ++
          (joinComma (G.map wrapGrammar) ++ ']' :: '\x7d' :: r))) =
          some (joinComma (G.map wrapGrammar) ++ ']' :: '\x7d' :: r) := by
        simp [dropLit, dropLit_append]
      have h5 := parseGrammars_round G ('\x7d' :: r) hG hqG
      have h6 : dropLit (']' :: ['\x7d']) (']' :: '\x7d' :: r) = some r := by
        simp [dropLit]
      simp [parseDgi, h0, h1, h2, h3, h4, h5, h6]

/-- C9 (amended): building the speech.context payload from a listen-for
list and an intent triple and parsing it back yields exactly the
classified reference grammars, the generic items and the intent triple —
provided no listen-for entry and no component of the triple contains a
double-quote character (the builder performs no JSON escaping, so quotes
make the builder non-injective) and the intent triple is either entirely
non-empty or entirely empty (a partially non-empty triple is omitted from
the payload and cannot be recovered by any parser). -/
theorem speechContext_roundTrip (l : List (List Char)) (p i k : List Char)
    (hql : ∀ e ∈ l, '"' ∉ e) (hp : '"' ∉ p) (hi : '"' ∉ i) (hk : '"' ∉ k)
    (htriple : (p ≠ [] ∧ i ≠ [] ∧ k ≠ []) ∨ (p = [] ∧ i = [] ∧ k = [])) :
    parseSpeechContext (buildSpeechContext l p i k) =
      some ((classifyListenForList l).1, (classifyListenForList l).2,
        p, i, k) := by
  rcases htriple with ⟨hp1, hi1, hk1⟩ | ⟨hp0, hi0, hk0⟩
  · have hIJ : GetLanguageUnderstandingJsonFromIntentInfo p i k false =
        providerPre ++ (p ++ (idPre ++ (i ++ (keyPre ++
          (k ++ intentPost))))) := by
      simp [GetLanguageUnderstandingJsonFromIntentInfo, hp1, hi1, hk1,
        List.append_assoc]
    have hIJne : providerPre ++ (p ++ (idPre ++ (i ++ (keyPre ++
        (k ++ intentPost))))) ≠ [] := by
      simp [providerPre]
    have hIntent : parseIntent (providerPre ++ (p ++ (idPre ++ (i ++
        (keyPre ++ (k ++ (intentPost ++ ['\x7d']))))))) =
        some (p, i, k, ['\x7d']) := by
      have := parseIntent_round p i k ['\x7d'] hp hi hk
      simpa [List.append_assoc] using this
    by_cases hdg : GetDgiJsonFromListenForList l false = []
    · have hGIT := (dgiJson_nil_iff l).1 hdg
      simp only [buildSpeechContext, hIJ, GetSpeechContextJson, hdg,
        ne_eq, not_true_eq_false, if_false, false_or, hIJne,
        not_false_eq_true, if_true, List.nil_append, List.append_assoc,
        List.cons_append]
      have h0 : dropLit ['\x7b'] ('\x7b' :: (intentKey ++ (providerPre ++
          (p ++ (idPre ++ (i ++ (keyPre ++ (k ++
            (intentPost ++ ['\x7d']))))))))) =
          some (intentKey ++ (providerPre ++ (p ++ (idPre ++ (i ++
            (keyPre ++ (k ++ (intentPost ++ ['\x7d'])))))))) := by
        simp [dropLit]
      have hmx : dropLit dgiKey (intentKey ++ (providerPre ++ (p ++
          (idPre ++ (i ++ (keyPre ++ (k ++ (intentPost ++ ['\x7d'])))))))) =
          none := by
        apply dropLit_mismatch
        · rw [List.take_append_of_le_length (by decide)]
          decide
        · decide
      have h1 : dropLit intentKey (intentKey ++ (providerPre ++ (p ++
          (idPre ++ (i ++ (keyPre ++ (k ++ (intentPost ++ ['\x7d'])))))))) =
          some (providerPre ++ (p ++ (idPre ++ (i ++ (keyPre ++ (k ++
            (intentPost ++ ['\x7d']))))))) :=
        dropLit_append _ _
      have h3 : dropLit ['\x7d'] ['\x7d'] = some [] := by simp [dropLit]
      simp [parseSpeechContext, h0, hmx, h1, hIntent, h3, hGIT.1, hGIT.2]
    · have hne : ¬((classifyListenForList l).1 = [] ∧
          (classifyListenForList l).2 = []) :=
        fun h => hdg ((dgiJson_nil_iff l).2 h)
      simp only [buildSpeechContext, hIJ, GetSpeechContextJson, hdg,
        ne_eq, not_false_eq_true, if_true, hIJne, List.nil_append,
        List.append_assoc, List.cons_append, List.singleton_append]
      have h0 : dropLit ['\x7b'] ('\x7b' :: (dgiKey ++
          (GetDgiJsonFromListenForList l false ++ (',' :: (intentKey ++
            (providerPre ++ (p ++ (idPre ++ (i ++ (keyPre ++ (k ++
              (intentPost ++ ['\x7d'])))))))))))) =
          some (dgiKey ++ (GetDgiJsonFromListenForList l false ++
            (',' :: (intentKey ++ (providerPre ++ (p ++ (idPre ++ (i ++
              (keyPre ++ (k ++ (intentPost ++ ['\x7d']))))))))))) := by
        simp [dropLit]
      have h1 : dropLit dgiKey (dgiKey ++
          (GetDgiJsonFromListenForList l false ++ (',' :: (intentKey ++
            (providerPre ++ (p ++ (idPre ++ (i ++ (keyPre ++ (k ++
              (intentPost ++ ['\x7d'])))))))))) ) =
          some (GetDgiJsonFromListenForList l false ++ (',' :: (intentKey ++
            (providerPre ++ (p ++ (idPre ++ (i ++ (keyPre ++ (k ++
              (intentPost ++ ['\x7d'])))))))))) :=
        dropLit_append _ _
      have h2 := parseDgi_round l (',' :: (intentKey ++ (providerPre ++
        (p ++ (idPre ++ (i ++ (keyPre ++ (k ++
          (intentPost ++ ['\x7d']))))))))) hql hne
      have h4 : dropLit intentKey (intentKey ++ (providerPre ++ (p ++
          (idPre ++ (i ++ (keyPre ++ (k ++ (intentPost ++ ['\x7d'])))))))) =
          some (providerPre ++ (p ++ (idPre ++ (i ++ (keyPre ++ (k ++
            (intentPost ++ ['\x7d']))))))) :=
        dropLit_append _ _
      have h5 : dropLit ['\x7d'] ['\x7d'] = some [] := by simp [dropLit]
      simp [parseSpeechContext, h0, h1, h2, h4, hIntent, h5]
  · subst hp0
    subst hi0
    subst hk0
    have hIJ : GetLanguageUnderstandingJsonFromIntentInfo [] [] [] false =
        [] := by
      simp [GetLanguageUnderstandingJsonFromIntentInfo]
    by_cases hdg : GetDgiJsonFromListenForList l false = []
    · have hGIT := (dgiJson_nil_iff l).1 hdg
      simp only [buildSpeechContext, hIJ, GetSpeechContextJson, hdg,
        ne_eq, not_true_eq_false, if_false, or_false, false_or,
        or_self]
      simp [parseSpeechContext, hGIT.1, hGIT.2]
    · have hne : ¬((classifyListenForList l).1 = [] ∧
          (classifyListenForList l).2 = []) :=
        fun h => hdg ((dgiJson_nil_iff l).2 h)
      simp only [buildSpeechContext, hIJ, GetSpeechContextJson, hdg,
        ne_eq, not_false_eq_true, if_true, not_true_eq_false, if_false,
        List.append_nil, List.nil_append, List.append_assoc,
        List.cons_append]
      have h0 : dropLit ['\x7b'] ('\x7b' :: (dgiKey ++
          (GetDgiJsonFromListenForList l false ++ ['\x7d']))) =
          some (dgiKey ++ (GetDgiJsonFromListenForList l false ++
            ['\x7d'])) := by
        simp [dropLit]
      have h1 : dropLit dgiKey (dgiKey ++
          (GetDgiJsonFromListenForList l false ++ ['\x7d'])) =
          some (GetDgiJsonFromListenForList l false ++ ['\x7d']) :=
        dropLit_append _ _
      have h2 := parseDgi_round l ['\x7d'] hql hne
      have h5 : dropLit ['\x7d'] ['\x7d'] = some [] := by simp [dropLit]
      simp [parseSpeechContext, h0, h1, h2, h5]

/-- Witness for `speechContext_roundTrip`: one generic item, one
reference-grammar entry and a full intent triple. -/
theorem speechContext_roundTrip_witness :
    parseSpeechContext (buildSpeechContext
      [['h', 'i'], ['\x7b', 'a', ':', 'b', '\x7d']]
      ['p', '1'] ['i', '1'] ['k', '1']) =
      some ((classifyListenForList
          [['h', 'i'], ['\x7b', 'a', ':', 'b', '\x7d']]).1,
        (classifyListenForList
          [['h', 'i'], ['\x7b', 'a', ':', 'b', '\x7d']]).2,
        ['p', '1'], ['i', '1'], ['k', '1']) :=
  speechContext_roundTrip [['h', 'i'], ['\x7b', 'a', ':', 'b', '\x7d']]
    ['p', '1'] ['i', '1'] ['k', '1'] (by decide) (by decide) (by decide)
    (by decide) (Or.inl (by decide))

end UspAdapter
